import Mathlib

/-!
# UETM-Fundraiser: the campaign list pipeline

A shallow embedding of `Frontend/my-react-app/src/components/CampaignList.jsx`:
`formatCampaignData`, `fetchCampaigns`, the `filteredCampaigns` memo (search,
status filter, sort), the view selection, the actions of a campaign,
`handleDonate` and `handleWithdraw`; of the donation handlers of
`CampaignCard.jsx`, `DonateModal.jsx` and `Pages/CampaignDetails.jsx` and the
countdown of `CampaignCard.jsx`; of `validateForm` and `handleSubmit` of
`CreateCampaignForm.jsx`; and of the listener subscription of
`context/Ethereumcontext.jsx`; followed by the properties proved about them.

Modelling conventions.

* On-chain integers (`goal`, `raised`, `deadline`) are `uint256` values and are
  modelled by `Nat`.  `BigInt(x)` of such a value (or of its decimal string) is
  the same natural number.  `Number(x)` of the progress quotient is the
  nearest Number with 53 significant bits (`numberOfBigInt`); `Number(x)` of a
  timestamp in seconds is taken exactly, as it is below `2 ^ 53`.  A `Date` is
  its time value in milliseconds or an Invalid Date (`JsDate`).
* JavaScript strings are modelled by `String`.  `String.prototype.toLowerCase`
  follows the case tables of the JavaScript engine, which are not part of the
  repository: on free text (titles, descriptions, search terms) it is a
  parameter `lower` of the search stage; on addresses, which are hexadecimal
  text, it is `toLowerCase`, which lower-cases the letters `A`-`Z`.
* React state is passed explicitly (`ListState`); the clock and the order in
  which contract reads settle are inputs of `fetchCampaigns`.
* An event handler is a function from the state and the outcomes of the calls
  it awaits to the state it leaves and the list of its effects (`Effect`), in
  the order they happen.
* `Array.prototype.sort` is stable, converts every comparator result with
  `ToNumber`, takes a NaN result as 0, and never calls the comparator on fewer
  than two elements.  For a consistent comparator the result of a stable sort
  does not depend on the algorithm, so it is modelled by a stable insertion
  sort (`arraySort`).
* The fields `target` and `durationDays` of the form and the amount of the
  detail view are number fields (`<input type="number">`): they hold the empty
  string or a valid floating-point number of the HTML standard
  (`NumberFieldValue`); the handlers themselves are modelled on every string.
-/

namespace UETM

/-! ## JavaScript values -/

/-- Exceptions raised by the JavaScript operations that are modelled. -/
inductive JsError where
  | typeError (msg : String)
  deriving DecidableEq, Repr

/-- The values the `canWithdraw` expression can evaluate to: `null`, a boolean
or a string. -/
inductive JsValue where
  | null
  | bool (b : Bool)
  | string (s : String)
  deriving DecidableEq, Repr

/-- JavaScript `ToBoolean`: `null` and the empty string are falsy. -/
def JsValue.truthy : JsValue → Bool
  | .null => false
  | .bool b => b
  | .string s => decide (s ≠ "")

deriving instance DecidableEq for Except

/-- The numeric values a sort comparator of the component returns: a Number
(an integer here, or NaN) or a BigInt. -/
inductive JsNumeric where
  | number (n : Int)
  | bigint (n : Int)
  | nan
  deriving DecidableEq, Repr

/-- What `Array.prototype.sort` makes of a comparator result: JavaScript
`ToNumber`, which is the identity on a Number and a `TypeError` on a BigInt
(ECMAScript 7.1.4), followed by the replacement of NaN by 0. -/
def toNumber : JsNumeric → Except JsError Int
  | .number n => .ok n
  | .bigint _ => .error (.typeError "Cannot convert a BigInt value to a number")
  | .nan => .ok 0

/-- `String.prototype.toLowerCase` on text whose cased letters are `A`-`Z`, as
in an address. -/
def toLowerCase (s : String) : String :=
  ⟨s.data.map Char.toLower⟩

/-- `String.prototype.includes`: `t` occurs in `s` as a contiguous substring. -/
def includes (s t : String) : Bool :=
  decide (t.data <:+: s.data)

/-- The code points JavaScript treats as white space or line terminator
(what `trim` strips). -/
def isWhiteSpace (c : Char) : Bool :=
  decide (c.toNat ∈ [9, 10, 11, 12, 13, 32, 160, 5760, 8232, 8233, 8239, 8287, 12288, 65279])
    || (decide (8192 ≤ c.toNat) && decide (c.toNat ≤ 8202))

/-- `String.prototype.trim`: strip white space from both ends. -/
def trim (s : String) : String :=
  ⟨(s.data.dropWhile isWhiteSpace).rdropWhile isWhiteSpace⟩

/-- Truthiness of the `account` value of the wallet context, which is `null`
or an address string. -/
def accountTruthy : Option String → Bool
  | none => false
  | some a => decide (a ≠ "")

/-! ## Data model -/

/-- The record `contract.getCampaignDetails(id)` resolves to. -/
structure CampaignDetails where
  title : String
  description : String
  goal : Nat
  deadline : Nat
  imageURL : String
  raised : Nat
  creator : String
  isClosed : Bool
  deriving DecidableEq, Repr

/-- A `Date` object: its time value in milliseconds, or an Invalid Date. -/
inductive JsDate where
  | valid (ms : Int)
  | invalid
  deriving DecidableEq, Repr

/-- `new Date(ms)` for a Number `ms`: a time value further than 8.64e15 ms from
the epoch gives an Invalid Date. -/
def newDate (ms : Int) : JsDate :=
  if -8640000000000000 ≤ ms ∧ ms ≤ 8640000000000000 then .valid ms else .invalid

/-- The difference `x - y` of two `Date` objects: the difference of their time
values, NaN when either is an Invalid Date.  The difference is kept exactly;
the Number it denotes has the same sign, which is what a sort reads. -/
def JsDate.sub : JsDate → JsDate → JsNumeric
  | .valid x, .valid y => .number (x - y)
  | _, _ => .nan

/-- The number of low bits `Number(n)` cannot keep: the least `e` with
`n / 2 ^ e < 2 ^ 53`.  `fuel` bounds the search. -/
def droppedBits : Nat → Nat → Nat
  | 0, _ => 0
  | fuel + 1, n => if n < 2 ^ 53 then 0 else droppedBits fuel (n / 2) + 1

/-- `n` rounded to the nearest multiple of `2 ^ e`, a tie going to the even
multiple. -/
def roundToMultiple (e n : Nat) : Nat :=
  if 2 * (n % 2 ^ e) < 2 ^ e then n / 2 ^ e * 2 ^ e
  else if 2 ^ e < 2 * (n % 2 ^ e) then (n / 2 ^ e + 1) * 2 ^ e
  else (n / 2 ^ e + n / 2 ^ e % 2) * 2 ^ e

/-- `Number(n)` for a BigInt `n ≥ 0`: the nearest Number, which has 53
significant bits, a tie going to the even one; it is `n` itself below `2 ^ 53`.
The search for the dropped bits covers every `n` below `2 ^ 1024`, where the
finite Numbers end; a quotient of `uint256` values is below `2 ^ 263`. -/
def numberOfBigInt (n : Nat) : Nat :=
  roundToMultiple (droppedBits 971 n) n

/-- The object built by `formatCampaignData`.  `id`, `goal` and `raised` are
decimal strings in the source and are kept as the numbers they spell; the
locale-formatted `deadline` display string is not modelled. -/
structure Campaign where
  id : Nat
  title : String
  description : String
  goal : Nat
  deadlineTimestamp : Nat
  image : String
  raised : Nat
  creator : String
  isClosed : Bool
  isExpired : Bool
  isFullyFunded : Bool
  isUrgent : Bool
  progress : Nat
  timeRemaining : Nat
  creationDate : JsDate
  canWithdraw : JsValue
  deriving DecidableEq, Repr

/-- `formatCampaignData(details, id)` (lines 54-93).  `account` is the value
captured from the wallet context and `nowMs` is `Date.now()`.
`timeRemaining / 86400 <= 3` is a comparison of real quotients and is written
`timeRemaining ≤ 3 * 86400`. -/
def formatCampaignData (account : Option String) (nowMs : Nat)
    (details : CampaignDetails) (id : Nat) : Campaign :=
  let deadlineTimestamp := details.deadline
  let currentTime := nowMs / 1000
  let timeRemaining :=
    if deadlineTimestamp > currentTime then deadlineTimestamp - currentTime else 0
  let raisedAmount := details.raised
  let goalAmount := details.goal
  let progressPercentage :=
    if goalAmount > 0 then numberOfBigInt ((raisedAmount * 100) / goalAmount) else 0
  let isClosed := details.isClosed
  let isExpired := decide (deadlineTimestamp < currentTime)
  let isFullyFunded := decide (progressPercentage ≥ 100)
  let isUrgent := decide (timeRemaining > 0) && decide (timeRemaining ≤ 3 * 86400)
  let creationDate : JsDate :=
    newDate ((deadlineTimestamp : Int) * 1000 - (30 * 86400 * 1000))
  { id := id
    title := details.title
    description := details.description
    goal := details.goal
    deadlineTimestamp := deadlineTimestamp
    image := details.imageURL
    raised := details.raised
    creator := details.creator
    isClosed := isClosed
    isExpired := isExpired
    isFullyFunded := isFullyFunded
    isUrgent := isUrgent
    progress := progressPercentage
    timeRemaining := timeRemaining / 86400
    creationDate := creationDate
    canWithdraw :=
      match account with
      | none => JsValue.null
      | some a =>
        if a = "" then JsValue.string a
        else JsValue.bool
          (decide (toLowerCase a = toLowerCase details.creator)
            && (isExpired || isFullyFunded) && !isClosed) }

/-! ## Fetching -/

/-- The two contract reads the list uses.  A read either resolves or rejects
with a message. -/
structure Contract where
  getCampaignCount : Except String Nat
  getCampaignDetails : Nat → Except String CampaignDetails

/-- The React state of `CampaignList` (lines 21-30). -/
structure ListState where
  campaigns : List Campaign
  selectedCampaign : Option Campaign
  isLoading : Bool
  error : Option String
  lastUpdated : Option Nat
  filter : String
  sortBy : String
  searchTerm : String
  deriving DecidableEq, Repr

/-- The initial values of the `useState` hooks (lines 21-30). -/
def initialState : ListState :=
  { campaigns := []
    selectedCampaign := none
    isLoading := true
    error := none
    lastUpdated := none
    filter := "all"
    sortBy := "newest"
    searchTerm := "" }

/-- The order in which the detail reads for ids `1..count` settle: by settle
time `settledAt id` (milliseconds), reads settling at the same time in the
order they were issued. -/
def settleOrder (settledAt : Nat → Nat) (count : Nat) : List Nat :=
  List.insertionSort (fun i j => settledAt i ≤ settledAt j) (List.range' 1 count)

/-- The `.then`/`.catch` pair attached to the read of campaign `i` (lines
118-125): a resolved read pushes the formatted campaign, a rejected read is
logged and pushes nothing. -/
def settleRead (contract : Contract) (account : Option String) (settledAt : Nat → Nat)
    (i : Nat) : Option Campaign :=
  match contract.getCampaignDetails i with
  | .ok details => some (formatCampaignData account (settledAt i) details i)
  | .error _ => none

/-- `fetchCampaigns` (lines 98-142), run to completion from state `s`.
`settledAt i` is the time at which the read of campaign `i` settles and `doneMs`
the time at which all have settled.  The second component is the list of
detail reads issued, in order. -/
def fetchCampaigns (contract : Option Contract) (account : Option String)
    (settledAt : Nat → Nat) (doneMs : Nat) (s : ListState) : ListState × List Nat :=
  match contract with
  | none => ({ s with isLoading := false, error := some "Contract not initialized" }, [])
  | some c =>
    match c.getCampaignCount with
    | .error _ =>
      ({ s with
          isLoading := false
          error := some "Failed to load campaigns. Please check your wallet connection." },
        [])
    | .ok count =>
      let campaignData := (settleOrder settledAt count).filterMap (settleRead c account settledAt)
      ({ s with
          campaigns := campaignData
          lastUpdated := some doneMs
          error := none
          isLoading := false },
        List.range' 1 count)

/-! ## Search, filter, sort -/

/-- One insertion step of `arraySort`: `a` goes before the first `b` for which
the comparator result `v` satisfies `v ≤ 0`. -/
def orderedInsertM {α : Type} (comparefn : α → α → JsNumeric) (a : α) :
    List α → Except JsError (List α)
  | [] => .ok [a]
  | b :: l =>
    match toNumber (comparefn a b) with
    | .error e => .error e
    | .ok v =>
      if v ≤ 0 then .ok (a :: b :: l)
      else
        match orderedInsertM comparefn a l with
        | .error e => .error e
        | .ok r => .ok (b :: r)

/-- `Array.prototype.sort(comparefn)`: a stable sort in which each comparator
result goes through `ToNumber`, whose exception aborts the sort. -/
def arraySort {α : Type} (comparefn : α → α → JsNumeric) : List α → Except JsError (List α)
  | [] => .ok []
  | a :: l =>
    match arraySort comparefn l with
    | .error e => .error e
    | .ok r => orderedInsertM comparefn a r

/-- The search stage (lines 258-265).  `lower` is `String.prototype.toLowerCase`
on free text. -/
def applySearch (lower : String → String) (searchTerm : String)
    (campaigns : List Campaign) : List Campaign :=
  if trim searchTerm ≠ "" then
    let searchLower := lower searchTerm
    campaigns.filter fun campaign =>
      includes (lower campaign.title) searchLower
        || includes (lower campaign.description) searchLower
  else campaigns

/-- The status filter (lines 267-290). -/
def applyFilter (filter : String) (account : Option String) (filtered : List Campaign) :
    List Campaign :=
  if filter = "active" then
    filtered.filter fun campaign => !campaign.isClosed && !campaign.isExpired
  else if filter = "urgent" then
    filtered.filter fun campaign => campaign.isUrgent
  else if filter = "funded" then
    filtered.filter fun campaign => campaign.isFullyFunded
  else if filter = "expired" then
    filtered.filter fun campaign => campaign.isExpired || campaign.isClosed
  else if filter = "my-campaigns" then
    filtered.filter fun campaign =>
      match account with
      | none => false
      | some a =>
        decide (a ≠ "") && decide (toLowerCase campaign.creator = toLowerCase a)
  else filtered

/-- Comparator of the `most-funded` sort (line 295): a BigInt difference. -/
def compareMostFunded (a b : Campaign) : JsNumeric :=
  .bigint ((b.raised : Int) - (a.raised : Int))

/-- Comparator of the `ending-soon` sort (lines 298-303). -/
def compareEndingSoon (a b : Campaign) : JsNumeric :=
  if a.isExpired && !b.isExpired then .number 1
  else if !a.isExpired && b.isExpired then .number (-1)
  else .number ((a.deadlineTimestamp : Int) - (b.deadlineTimestamp : Int))

/-- Comparator of the `newest` sort and of the default case (lines 306, 313). -/
def compareNewest (a b : Campaign) : JsNumeric :=
  b.creationDate.sub a.creationDate

/-- Comparator of the `oldest` sort (line 309). -/
def compareOldest (a b : Campaign) : JsNumeric :=
  a.creationDate.sub b.creationDate

/-- Whether `Array.prototype.sort` takes `a` to come no later than `b`: the
comparator result converts to a Number that is at most 0. -/
def sortsBefore {α : Type} (comparefn : α → α → JsNumeric) (a b : α) : Bool :=
  match toNumber (comparefn a b) with
  | .ok v => decide (v ≤ 0)
  | .error _ => false

/-- The sort stage (lines 292-314). -/
def applySort (sortBy : String) (filtered : List Campaign) : Except JsError (List Campaign) :=
  if sortBy = "most-funded" then arraySort compareMostFunded filtered
  else if sortBy = "ending-soon" then arraySort compareEndingSoon filtered
  else if sortBy = "newest" then arraySort compareNewest filtered
  else if sortBy = "oldest" then arraySort compareOldest filtered
  else arraySort compareNewest filtered

/-- The `filteredCampaigns` memo (lines 255-317): search, then status filter,
then sort, on a copy of the fetched list.  An exception thrown by the sort
propagates out of the memo.  `lower` is `String.prototype.toLowerCase` on free
text. -/
def filteredCampaigns (lower : String → String) (campaigns : List Campaign)
    (filter sortBy searchTerm : String) (account : Option String) :
    Except JsError (List Campaign) :=
  applySort sortBy (applyFilter filter account (applySearch lower searchTerm campaigns))

/-! ## Rendering the list view -/

/-- Which of the four returns of `CampaignList` is rendered (lines 319-354).
The error view carries the message and the Retry button, whose handler is
`fetchCampaigns`. -/
inductive ListView where
  | loading
  | errorWithRetry (message : String)
  | noCampaigns
  | campaignGrid
  deriving DecidableEq, Repr

/-- The early returns of `CampaignList` (lines 319-354), on the React state. -/
def renderListView (s : ListState) : ListView :=
  if s.isLoading && decide (s.campaigns.length = 0) then .loading
  else
    match s.error with
    | some message =>
      if decide (message ≠ "") && decide (s.campaigns.length = 0) then .errorWithRetry message
      else if s.campaigns.length = 0 then .noCampaigns
      else .campaignGrid
    | none =>
      if s.campaigns.length = 0 then .noCampaigns else .campaignGrid

/-! ## Parsing numbers -/

/-- The value of a run of decimal digits. -/
def digitsValue (ds : List Char) : Nat :=
  ds.foldl (fun n c => 10 * n + (c.toNat - 48)) 0

/-- The Number a decimal literal denotes, kept as sign, decimal mantissa and
decimal exponent; `nan` when there is no literal. -/
inductive JsDecimal where
  | nan
  | infinity (negative : Bool)
  | finite (negative : Bool) (mantissa : Nat) (exponent : Int)
  deriving DecidableEq, Repr

/-- The power `10 ^ k`, split so that no single exponent is large. -/
def tenPow (k : Nat) : Nat :=
  (10 ^ 200) ^ (k / 200) * 10 ^ (k % 200)

/-- Whether the positive literal `mantissa * 10 ^ exponent` denotes the Number
0: it does when it is at most `2 ^ (-1075)`, half the least positive Number
`2 ^ (-1074)` (the tie goes to 0).  `(2 ^ 215) ^ 5` is `2 ^ 1075`. -/
def underflowsToZero (mantissa : Nat) (exponent : Int) : Bool :=
  decide (exponent < 0) && decide (mantissa * (2 ^ 215) ^ 5 ≤ tenPow exponent.natAbs)

/-- The comparison `x <= 0` on the Number a literal denotes. -/
def JsDecimal.leZero : JsDecimal → Bool
  | .nan => false
  | .infinity negative => negative
  | .finite negative mantissa exponent =>
    negative || decide (mantissa = 0) || underflowsToZero mantissa exponent

/-- The comparison `x > 0` on the Number a literal denotes. -/
def JsDecimal.gtZero : JsDecimal → Bool
  | .nan => false
  | x => !x.leZero

/-- An optional sign: whether it is `-`, and what follows it. -/
def scanSign : List Char → Bool × List Char
  | '-' :: rest => (true, rest)
  | '+' :: rest => (false, rest)
  | cs => (false, cs)

/-- An optional `ExponentPart` (`e` or `E`, optional sign, digits): its value
and what follows it. -/
def scanExponent (cs : List Char) : Int × List Char :=
  match cs with
  | [] => (0, [])
  | e :: rest =>
    if e = 'e' ∨ e = 'E' then
      let ds := (scanSign rest).2.takeWhile Char.isDigit
      if ds = [] then (0, cs)
      else
        ((if (scanSign rest).1 then -(digitsValue ds : Int) else (digitsValue ds : Int)),
          (scanSign rest).2.dropWhile Char.isDigit)
    else (0, cs)

/-- The longest prefix that is a `StrUnsignedDecimalLiteral` other than
`Infinity`: mantissa, exponent and what follows, or `none`. -/
def scanUnsignedDecimal (cs : List Char) : Option (Nat × Int × List Char) :=
  let ip := cs.takeWhile Char.isDigit
  match cs.dropWhile Char.isDigit with
  | '.' :: r2 =>
    let fp := r2.takeWhile Char.isDigit
    if ip = [] ∧ fp = [] then none
    else
      some (digitsValue (ip ++ fp),
        (scanExponent (r2.dropWhile Char.isDigit)).1 - (fp.length : Int),
        (scanExponent (r2.dropWhile Char.isDigit)).2)
  | r1 =>
    if ip = [] then none
    else some (digitsValue ip, (scanExponent r1).1, (scanExponent r1).2)

/-- The longest prefix that is a `StrDecimalLiteral`: the Number it denotes and
what follows it. -/
def scanDecimal (cs : List Char) : JsDecimal × List Char :=
  if "Infinity".data.isPrefixOf (scanSign cs).2 then
    (.infinity (scanSign cs).1, (scanSign cs).2.drop 8)
  else
    match scanUnsignedDecimal (scanSign cs).2 with
    | some (mantissa, exponent, rest) => (.finite (scanSign cs).1 mantissa exponent, rest)
    | none => (.nan, cs)

/-- JavaScript `parseFloat`: skip leading white space, then read the longest
decimal literal. -/
def parseFloat (s : String) : JsDecimal :=
  (scanDecimal (s.data.dropWhile isWhiteSpace)).1

/-- The value of a hexadecimal digit, if the character is one. -/
def hexDigit (c : Char) : Option Nat :=
  if c.isDigit then some (c.toNat - 48)
  else if 'a' ≤ c ∧ c ≤ 'f' then some (c.toNat - 87)
  else if 'A' ≤ c ∧ c ≤ 'F' then some (c.toNat - 55)
  else none

/-- JavaScript `parseInt` without a radix: skip leading white space, read a
sign, an optional `0x` prefix and the longest run of digits; `none` is NaN. -/
def parseInt (s : String) : Option Int :=
  let signed := scanSign (s.data.dropWhile isWhiteSpace)
  let magnitude : Option Nat :=
    match signed.2 with
    | '0' :: x :: rest =>
      if x = 'x' ∨ x = 'X' then
        let ds := rest.takeWhile fun c => (hexDigit c).isSome
        if ds = [] then none
        else some (ds.foldl (fun n c => 16 * n + (hexDigit c).getD 0) 0)
      else some (digitsValue (signed.2.takeWhile Char.isDigit))
    | body =>
      if body.takeWhile Char.isDigit = [] then none
      else some (digitsValue (body.takeWhile Char.isDigit))
  match magnitude with
  | none => none
  | some n => some (if signed.1 then -(n : Int) else (n : Int))

/-- Whether the text is a `NonDecimalIntegerLiteral`: `0x`, `0o` or `0b` (in
either case) followed by digits of that radix. -/
def isNonDecimalIntegerLiteral : List Char → Bool
  | '0' :: x :: rest =>
    decide (rest ≠ []) &&
      (if x = 'x' ∨ x = 'X' then rest.all fun c => (hexDigit c).isSome
       else if x = 'o' ∨ x = 'O' then rest.all fun c => decide ('0' ≤ c ∧ c ≤ '7')
       else if x = 'b' ∨ x = 'B' then rest.all fun c => decide (c = '0' ∨ c = '1')
       else false)
  | _ => false

/-- JavaScript `isNaN` on a string: whether `Number(s)` is NaN.  Blank text is 0;
otherwise the trimmed text has to be one numeric literal. -/
def isNaN (s : String) : Bool :=
  if (trim s).data = [] then false
  else if isNonDecimalIntegerLiteral (trim s).data then false
  else
    match scanDecimal (trim s).data with
    | (.nan, _) => true
    | (_, rest) => decide (rest ≠ [])

/-- `String.prototype.startsWith`. -/
def startsWith (s pre : String) : Bool :=
  pre.data.isPrefixOf s.data

/-! ## Write actions -/

/-- An error thrown by a contract call, by the wallet or by `parseEther`: an
`Error` with a message and, for ethers errors, possibly a `reason`. -/
structure ErrorObj where
  reason : Option String
  message : String
  deriving DecidableEq, Repr

/-- The expression `err.reason || err.message`: the reason unless it is absent or
empty. -/
def reasonOrMessage (err : ErrorObj) : String :=
  match err.reason with
  | some r => if r = "" then err.message else r
  | none => err.message

/-- A submitted transaction: `wait()` resolves on confirmation or rejects. -/
structure Transaction where
  wait : Except ErrorObj Unit

/-- The arguments of `contract.createCampaign` (lines 72-79 of the form).
`durationDays` is the result of `parseInt`, `none` standing for NaN. -/
structure CreateArgs where
  title : String
  description : String
  targetAmount : Nat
  durationDays : Option Int
  beneficiary : String
  image : String
  deriving DecidableEq, Repr

/-- The contract methods that send a transaction.  A call resolves to a
transaction or rejects. -/
structure WriteContract where
  withdrawFunds : Nat → Except ErrorObj Transaction
  donate : Nat → Nat → Except ErrorObj Transaction
  createCampaign : CreateArgs → Except ErrorObj Transaction

/-- What a handler does besides updating the state it returns: alerts, contract
calls, waits, and calls of callbacks and state setters. -/
inductive Effect where
  | alert (text : String)
  | withdrawFunds (campaignId : Nat)
  | donate (campaignId : Nat) (value : Nat)
  | createCampaign (args : CreateArgs)
  | wait
  | delay (ms : Nat)
  | getCampaignDetails (id : String)
  | fetchCampaigns
  | onUpdate
  | setSelectedCampaign (id : Option Nat)
  | setLoading (value : Bool)
  | setDonationAmount (value : String)
  deriving DecidableEq, Repr

/-- `handleWithdraw` of `CampaignList` (lines 168-180). -/
def handleWithdraw (account : Option String) (contract : Option WriteContract)
    (campaign : Campaign) : List Effect :=
  match contract with
  | none => []
  | some c =>
    if !accountTruthy account then []
    else
      match c.withdrawFunds campaign.id with
      | .error err =>
        [.withdrawFunds campaign.id, .alert ("Failed to withdraw: " ++ reasonOrMessage err)]
      | .ok tx =>
        match tx.wait with
        | .error err =>
          [.withdrawFunds campaign.id, .wait,
            .alert ("Failed to withdraw: " ++ reasonOrMessage err)]
        | .ok _ =>
          [.withdrawFunds campaign.id, .wait, .alert "Funds withdrawn successfully!",
            .fetchCampaigns]

/-- `handleDonate` of `CampaignCard` (lines 41-62).  `parseEther` is the ethers
conversion of an ETH amount to wei, which throws on text it cannot convert. -/
def CampaignCard.handleDonate (contract : Option WriteContract) (account : Option String)
    (parseEther : String → Except ErrorObj Nat) (campaignId : Nat)
    (donationAmount : String) : List Effect :=
  match contract with
  | none => [.alert "Connect your wallet first."]
  | some c =>
    if !accountTruthy account then [.alert "Connect your wallet first."]
    else if decide (donationAmount = "") || (parseFloat donationAmount).leZero then
      [.alert "Enter a valid donation amount."]
    else
      match parseEther donationAmount with
      | .error err =>
        [.setLoading true, .alert ("Donation failed: " ++ reasonOrMessage err),
          .setLoading false]
      | .ok value =>
        match c.donate campaignId value with
        | .error err =>
          [.setLoading true, .donate campaignId value,
            .alert ("Donation failed: " ++ reasonOrMessage err), .setLoading false]
        | .ok tx =>
          match tx.wait with
          | .error err =>
            [.setLoading true, .donate campaignId value, .wait,
              .alert ("Donation failed: " ++ reasonOrMessage err), .setLoading false]
          | .ok _ =>
            [.setLoading true, .donate campaignId value, .wait,
              .alert "Donation successful!", .setDonationAmount "", .onUpdate,
              .setLoading false]

/-- The props `CampaignList` passes to `DonateModal` (lines 545-550); a callback
is given by what calling it does. -/
structure DonateModalProps where
  campaign : Campaign
  onClose : List Effect
  contract : Option WriteContract
  refreshCampaigns : List Effect

/-- The props of the modal opened from the list for `selectedCampaign`:
`onClose` clears the selection and `refreshCampaigns` is `fetchCampaigns`. -/
def listModalProps (contract : Option WriteContract) (selectedCampaign : Campaign) :
    DonateModalProps :=
  { campaign := selectedCampaign
    onClose := [.setSelectedCampaign none]
    contract := contract
    refreshCampaigns := [.fetchCampaigns] }

/-- `handleDonate` of `DonateModal` (lines 11-29).  The component destructures
`campaign` and `onClose` from its props and takes `contract` from the wallet
context. -/
def DonateModal.handleDonate (contract : Option WriteContract)
    (parseEther : String → Except ErrorObj Nat) (props : DonateModalProps)
    (amount : String) : List Effect :=
  match contract with
  | none => []
  | some c =>
    if decide (amount = "") || (parseFloat amount).leZero then []
    else
      match parseEther amount with
      | .error _ => [.setLoading true, .setLoading false, .alert "Donation failed."]
      | .ok value =>
        match c.donate props.campaign.id value with
        | .error _ =>
          [.setLoading true, .donate props.campaign.id value, .setLoading false,
            .alert "Donation failed."]
        | .ok tx =>
          match tx.wait with
          | .error _ =>
            [.setLoading true, .donate props.campaign.id value, .wait, .setLoading false,
              .alert "Donation failed."]
          | .ok _ =>
            [.setLoading true, .donate props.campaign.id value, .wait, .setLoading false,
              .alert "Donation successful!"] ++ props.onClose

/-! ## The create-campaign form -/

/-- The `formData` state of the form (lines 8-15). -/
structure FormData where
  title : String
  description : String
  target : String
  durationDays : String
  beneficiary : String
  image : String
  deriving DecidableEq, Repr

/-- The `errors` object: a field holds the message recorded under that key, if
any. -/
structure FormErrors where
  title : Option String
  description : Option String
  target : Option String
  durationDays : Option String
  beneficiary : Option String
  image : Option String
  deriving DecidableEq, Repr

/-- The keys present in the `errors` object (`Object.keys(errors)`). -/
def FormErrors.keys (errors : FormErrors) : List String :=
  (if errors.title.isSome then ["title"] else [])
    ++ (if errors.description.isSome then ["description"] else [])
    ++ (if errors.target.isSome then ["target"] else [])
    ++ (if errors.durationDays.isSome then ["durationDays"] else [])
    ++ (if errors.beneficiary.isSome then ["beneficiary"] else [])
    ++ (if errors.image.isSome then ["image"] else [])

/-- The comparison `parseInt(s) <= 0`, false when `parseInt` gives NaN. -/
def parseIntLeZero (s : String) : Bool :=
  match parseInt s with
  | some n => decide (n ≤ 0)
  | none => false

/-- `validateForm` (lines 28-42): the errors it stores with `setErrors` and the
boolean it returns. -/
def validateForm (formData : FormData) : FormErrors × Bool :=
  let errors : FormErrors :=
    { title := if formData.title = "" then some "Title is required" else none
      description :=
        if formData.description = "" then some "Description is required" else none
      target :=
        if decide (formData.target = "") || (parseFloat formData.target).leZero then
          some "Target amount must be greater than 0"
        else none
      durationDays :=
        if decide (formData.durationDays = "") || parseIntLeZero formData.durationDays then
          some "Duration must be at least 1 day"
        else none
      beneficiary :=
        if decide (formData.beneficiary = "") || !startsWith formData.beneficiary "0x" then
          some "Valid beneficiary address is required"
        else none
      image :=
        if decide (formData.image = "") || !startsWith formData.image "http" then
          some "Valid image URL is required"
        else none }
  (errors, decide (errors.keys.length = 0))

/-- What a number field (`<input type="number">`, lines 164-191) holds when it
is not empty: a valid floating-point number of the HTML standard, which is an
optional `-`, then digits, or a `.` and digits, or both, then optionally an
exponent: `e` or `E`, an optional sign and digits.  Text that is not of this
form reaches `handleChange` as the empty string. -/
structure NumberFieldValue where
  negative : Bool
  integerPart : List Char
  fractionPart : List Char
  exponentPart : Option (Char × List Char × List Char)
  deriving DecidableEq, Repr

/-- Whether the parts are those of a valid floating-point number. -/
def NumberFieldValue.wellFormed (v : NumberFieldValue) : Bool :=
  v.integerPart.all Char.isDigit && v.fractionPart.all Char.isDigit
    && decide (v.integerPart ≠ [] ∨ v.fractionPart ≠ [])
    && match v.exponentPart with
      | none => true
      | some (marker, sign, digits) =>
        decide (marker = 'e' ∨ marker = 'E')
          && decide (sign = [] ∨ sign = ['+'] ∨ sign = ['-'])
          && decide (digits ≠ []) && digits.all Char.isDigit

/-- The exponent part as text. -/
def NumberFieldValue.exponentText (v : NumberFieldValue) : List Char :=
  match v.exponentPart with
  | none => []
  | some (marker, sign, digits) => marker :: (sign ++ digits)

/-- The text of the field value. -/
def NumberFieldValue.text (v : NumberFieldValue) : String :=
  ⟨(if v.negative then ['-'] else []) ++ (v.integerPart
    ++ ((if v.fractionPart = [] then [] else '.' :: v.fractionPart) ++ v.exponentText))⟩

/-- The exponent the exponent part denotes. -/
def NumberFieldValue.exponentValue (v : NumberFieldValue) : Int :=
  match v.exponentPart with
  | none => 0
  | some (_, sign, digits) =>
    if sign = ['-'] then -(digitsValue digits : Int) else (digitsValue digits : Int)

/-- The number the field value denotes: its digits, scaled by the power of ten
that the place of the point and the exponent part give. -/
def NumberFieldValue.number (v : NumberFieldValue) : JsDecimal :=
  .finite v.negative (digitsValue (v.integerPart ++ v.fractionPart))
    (v.exponentValue - (v.fractionPart.length : Int))

/-- The state of the form component (lines 8-19). -/
structure FormState where
  formData : FormData
  loading : Bool
  errors : FormErrors
  successMessage : String
  deriving DecidableEq, Repr

/-- The text alerted when creating a campaign throws an error with message
`message` (lines 97-116). -/
def createErrorAlert (message : String) : String :=
  "Error creating campaign: " ++
    (if includes message "user rejected" then "Transaction was rejected by user."
     else if includes message "INVALID_ARGUMENT" || includes message "no matching fragment" then
       "Contract requires different parameter types. Check the console for details."
     else ⟨message.data.takeWhile fun c => c ≠ '('⟩)

/-- The `catch` block of `handleSubmit` (lines 93-117), after the effects `done`
of the `try` block. -/
def submitFailed (s : FormState) (done : List Effect) (err : ErrorObj) :
    FormState × List Effect :=
  ({ s with loading := false, successMessage := "" },
    done ++ [.alert (createErrorAlert err.message)])

/-- `handleSubmit` of the form (lines 44-118): the state after it and the alerts
and contract calls it makes. -/
def handleSubmit (contract : Option WriteContract) (account : Option String)
    (parseEther : String → Except ErrorObj Nat) (s : FormState) :
    FormState × List Effect :=
  let validated : FormState := { s with errors := (validateForm s.formData).1 }
  if !(validateForm s.formData).2 then (validated, [])
  else
    match contract, account with
    | some c, some a =>
      if a = "" then (validated, [.alert "Please connect your wallet first."])
      else
        match parseEther s.formData.target with
        | .error err => submitFailed validated [] err
        | .ok targetAmount =>
          let args : CreateArgs :=
            { title := s.formData.title
              description := s.formData.description
              targetAmount := targetAmount
              durationDays := parseInt s.formData.durationDays
              beneficiary := s.formData.beneficiary
              image := s.formData.image }
          match c.createCampaign args with
          | .error err => submitFailed validated [.createCampaign args] err
          | .ok tx =>
            match tx.wait with
            | .error err => submitFailed validated [.createCampaign args, .wait] err
            | .ok _ =>
              ({ validated with
                  loading := false
                  successMessage := "University campaign created successfully!"
                  formData :=
                    { title := ""
                      description := ""
                      target := ""
                      durationDays := "30"
                      beneficiary := a
                      image := "" } },
                [.createCampaign args, .wait])
    | _, _ => (validated, [.alert "Please connect your wallet first."])

/-! ## The campaign detail view -/

/-- The record the detail view reads from `contract.getCampaignDetails(id)`
(lines 21-31): the fields it accesses. -/
structure DetailData where
  title : String
  description : String
  target : Nat
  deadline : Nat
  image : String
  amountRaised : Nat
  creator : String
  deriving DecidableEq, Repr

/-- The `campaign` state of the detail view (lines 22-31). -/
structure DetailCampaign where
  title : String
  description : String
  target : Nat
  deadline : JsDate
  image : String
  raised : Nat
  creator : String
  id : String
  deriving DecidableEq, Repr

/-- The React state of `CampaignDetails` (lines 9-14). -/
structure DetailState where
  campaign : Option DetailCampaign
  loading : Bool
  donationAmount : String
  donating : Bool
  donationSuccess : Bool
  error : Option String
  deriving DecidableEq, Repr

/-- The contract read the detail view uses. -/
structure DetailContract where
  getCampaignDetails : String → Except ErrorObj DetailData

/-- `fetchCampaign` of the detail view (lines 16-39); `id` is the route
parameter. -/
def fetchCampaign (contract : Option DetailContract) (id : Option String) (s : DetailState) :
    DetailState × List Effect :=
  match contract, id with
  | some c, some i =>
    if i = "" then (s, [])
    else
      match c.getCampaignDetails i with
      | .ok data =>
        ({ s with
            error := none
            campaign := some
              { title := data.title
                description := data.description
                target := data.target
                deadline := newDate ((data.deadline : Int) * 1000)
                image := data.image
                raised := data.amountRaised
                creator := data.creator
                id := i }
            loading := false },
          [.getCampaignDetails i])
      | .error _ =>
        ({ s with
            error := some "Failed to load campaign data. Please try again later."
            loading := false },
          [.getCampaignDetails i])
  | _, _ => (s, [])

/-- `handleDonate` of the detail view (lines 66-94). -/
def CampaignDetails.handleDonate (contract : Option DetailContract) (id : Option String)
    (s : DetailState) : DetailState × List Effect :=
  if decide (s.donationAmount = "") || isNaN s.donationAmount
      || (parseFloat s.donationAmount).leZero then
    ({ s with error := some "Please enter a valid donation amount" }, [])
  else
    let fetched := fetchCampaign contract id
      { s with donating := true, error := none, donationSuccess := true, donationAmount := "" }
    ({ fetched.1 with donating := false }, .delay 1500 :: fetched.2)

/-! ## The actions of a campaign in the list -/

/-- What the `campaign-actions` block of a campaign in the grid can render
(lines 489-528). -/
inductive ActionItem where
  | donateNow
  | status (text : String)
  | withdrawFunds
  | closeFailedCampaign
  deriving DecidableEq, Repr

/-- The children of the `campaign-actions` block (lines 489-528).  An expression
`cond && element` renders the element when `cond` is truthy and nothing when it
is `null`, `false` or the empty string. -/
def renderActions (campaign : Campaign) : List ActionItem :=
  (if !campaign.isClosed && !campaign.isExpired then [.donateNow] else [])
    ++ (if campaign.isClosed || campaign.isExpired then
          [.status
            ((if campaign.isClosed then "Campaign Closed" else "Campaign Expired")
              ++ (if campaign.isFullyFunded then " - Goal Reached!" else ""))]
        else [])
    ++ (if campaign.canWithdraw.truthy && campaign.isFullyFunded then [.withdrawFunds] else [])
    ++ (if campaign.canWithdraw.truthy && !campaign.isFullyFunded then [.closeFailedCampaign]
        else [])

/-- `handleDonate` of `CampaignList` (lines 149-161): the state it leaves and
the alert it shows. -/
def CampaignList.handleDonate (account : Option String) (campaign : Campaign)
    (s : ListState) : ListState × List Effect :=
  if !accountTruthy account then (s, [.alert "Please connect your wallet first"])
  else if campaign.isClosed || campaign.isExpired then
    (s, [.alert "This campaign is no longer accepting donations"])
  else ({ s with selectedCampaign := some campaign }, [])

/-! ## The countdown of a campaign card -/

/-- The `remainingTime` state of `CampaignCard` (line 11). -/
structure RemainingTime where
  days : Int
  hours : Int
  minutes : Int
  deriving DecidableEq, Repr

/-- The two pieces of state `updateTime` sets (lines 11-12). -/
structure CountdownState where
  remainingTime : RemainingTime
  isEnded : Bool
  deriving DecidableEq, Repr

/-- `updateTime` of `CampaignCard` (lines 17-34): `nowMs` is `Date.now()`,
`deadline` and `isClosed` are the fields of the `campaign` prop. -/
def updateTime (nowMs : Nat) (deadline : Nat) (isClosed : Bool) : CountdownState :=
  let now : Int := ((nowMs / 1000 : Nat) : Int)
  let secondsLeft : Int := (deadline : Int) - now
  if decide (secondsLeft ≤ 0) || isClosed then
    { remainingTime := { days := 0, hours := 0, minutes := 0 }, isEnded := true }
  else
    let days := secondsLeft / (60 * 60 * 24)
    let hours := (secondsLeft % (60 * 60 * 24)) / (60 * 60)
    let minutes := (secondsLeft % (60 * 60)) / 60
    { remainingTime := { days := days, hours := hours, minutes := minutes }, isEnded := false }

/-! ## The wallet context -/

/-- The injected wallet provider (`window.ethereum`) as an event emitter: its
subscriptions in the order they were made, each an event name and the identity
of the subscribed function object. -/
structure InjectedProvider where
  listeners : List (String × Nat)
  deriving DecidableEq, Repr

/-- `provider.on(event, listener)`: subscribe the function object. -/
def InjectedProvider.on (provider : InjectedProvider) (event : String) (listener : Nat) :
    InjectedProvider :=
  { listeners := provider.listeners ++ [(event, listener)] }

/-- `provider.removeListener(event, listener)`: drop the most recent
subscription of this very function object to the event, if there is one. -/
def InjectedProvider.removeListener (provider : InjectedProvider) (event : String)
    (listener : Nat) : InjectedProvider :=
  { listeners := (provider.listeners.reverse.erase (event, listener)).reverse }

/-- The page the provider component runs in: `window.ethereum`, if a wallet is
installed, and the number of function objects created so far.  Evaluating a
function expression creates a new function object, identified by the next
number. -/
structure Page where
  ethereum : Option InjectedProvider
  functionCount : Nat
  deriving DecidableEq, Repr

/-- The body of the effect of `EthereumProvider` (lines 46-51), run at mount:
the arrow function `() => init()` is created and subscribed to
`accountsChanged`.  The call of `init` before it only sets the state of the
component.  The second component is the identity of the subscribed handler. -/
def mountEffect (page : Page) : Page × Option Nat :=
  match page.ethereum with
  | some provider =>
    ({ ethereum := some (provider.on "accountsChanged" page.functionCount)
       functionCount := page.functionCount + 1 },
      some page.functionCount)
  | none => (page, none)

/-- The cleanup returned by the effect (lines 53-57), run at teardown: another
arrow function `() => init()` is created and passed to `removeListener`. -/
def cleanupEffect (page : Page) : Page :=
  match page.ethereum with
  | some provider =>
    { ethereum := some (provider.removeListener "accountsChanged" page.functionCount)
      functionCount := page.functionCount + 1 }
  | none => page

/-! ## Sample data -/

/-- A campaign record as the contract returns it, for the worked examples. -/
def sampleDetails (title : String) (goal raised deadline : Nat) (creator : String)
    (isClosed : Bool) : CampaignDetails :=
  { title := title
    description := "about " ++ title
    goal := goal
    deadline := deadline
    imageURL := "https://example.org/campaign.png"
    raised := raised
    creator := creator
    isClosed := isClosed }

/-- A contract with five campaigns whose read of campaign 3 rejects. -/
def fiveWithThirdFailing : Contract :=
  { getCampaignCount := .ok 5
    getCampaignDetails := fun i =>
      if i = 3 then .error "call revert exception"
      else .ok (sampleDetails "Library" 1000 (10 * i) 2000000000 "0xAbCd" false) }

/-- Two fetched campaigns that have raised 10^20 and 10^21 base units. -/
def largeRaised : List Campaign :=
  [ formatCampaignData none 1700000000000
      (sampleDetails "Books" 5000000000000000000000 100000000000000000000 2000000000
        "0xAbCd" false) 1,
    formatCampaignData none 1700000000000
      (sampleDetails "Lab" 5000000000000000000000 1000000000000000000000 2000000000
        "0xAbCd" false) 2 ]

/-- An active campaign, fetched with no account connected. -/
def labCampaign : Campaign :=
  formatCampaignData none 1700000000000
    (sampleDetails "Lab" 1000 10 1800000000 "0xAbCd" false) 2

/-- Three fetched campaigns: one expired and not fully funded, one active, one
closed. -/
def threeCampaigns : List Campaign :=
  [ formatCampaignData none 1700000000000
      (sampleDetails "Books" 1000 10 1600000000 "0xAbCd" false) 1,
    labCampaign,
    formatCampaignData none 1700000000000
      (sampleDetails "Garden" 1000 10 1800000000 "0xAbCd" true) 3 ]

/-- Two fetched campaigns whose deadlines lie beyond the range of `Date`. -/
def farFuture : List Campaign :=
  [ formatCampaignData none 1700000000000
      (sampleDetails "Books" 1000 10 9000000000000 "0xAbCd" false) 1,
    formatCampaignData none 1700000000000
      (sampleDetails "Lab" 1000 10 9500000000000 "0xAbCd" false) 2 ]

/-- A contract whose count read rejects. -/
def countFailing : Contract :=
  { getCampaignCount := .error "could not detect network"
    getCampaignDetails := fun _ => .error "could not detect network" }

/-- A list view that already shows one fetched campaign. -/
def shownState : ListState :=
  { initialState with campaigns := [labCampaign], isLoading := false, lastUpdated := some 60 }

/-- A form content that passes every check of `validateForm`. -/
def validForm : FormData :=
  { title := "Lab"
    description := "A new lab"
    target := "5"
    durationDays := "30"
    beneficiary := "0xAbCd"
    image := "https://example.org/lab.png" }

/-- The valid form with the given texts in its two number fields. -/
def formWith (target durationDays : String) : FormData :=
  { validForm with target := target, durationDays := durationDays }

/-- The field value `0.5`. -/
def halfEther : NumberFieldValue :=
  { negative := false, integerPart := ['0'], fractionPart := ['5'], exponentPart := none }

/-- The field value `2.5`. -/
def twoDaysAndHalf : NumberFieldValue :=
  { negative := false, integerPart := ['2'], fractionPart := ['5'], exponentPart := none }

/-- The valid form with an empty title. -/
def untitledForm : FormData :=
  { validForm with title := "" }

/-- The form component before any submission, holding `formData`. -/
def freshForm (formData : FormData) : FormState :=
  { formData := formData
    loading := false
    errors := ⟨none, none, none, none, none, none⟩
    successMessage := "" }

/-- A stand-in for `parseEther` on the sample amounts: `5` is 5 ETH in wei,
other text is refused. -/
def sampleParseEther (s : String) : Except ErrorObj Nat :=
  if s = "5" then .ok 5000000000000000000
  else .error { reason := none, message := "invalid FixedNumber string value" }

/-- A contract whose transactions are all sent and confirmed. -/
def acceptingContract : WriteContract :=
  { withdrawFunds := fun _ => .ok { wait := .ok () }
    donate := fun _ _ => .ok { wait := .ok () }
    createCampaign := fun _ => .ok { wait := .ok () } }

/-- A contract whose calls all reject with a reason. -/
def rejectingContract : WriteContract :=
  { withdrawFunds := fun _ =>
      .error { reason := some "Not the creator", message := "execution reverted" }
    donate := fun _ _ =>
      .error { reason := some "Campaign ended", message := "execution reverted" }
    createCampaign := fun _ =>
      .error { reason := some "Goal is zero", message := "execution reverted (action=send)" } }

/-- A contract for the detail view whose read resolves. -/
def sampleDetailContract : DetailContract :=
  { getCampaignDetails := fun _ =>
      .ok
        { title := "Lab"
          description := "A new lab"
          target := 1000
          deadline := 1800000000
          image := "https://example.org/lab.png"
          amountRaised := 10
          creator := "0xAbCd" } }

/-- The detail view showing no campaign yet, with `amount` typed in the
donation field. -/
def typedAmount (amount : String) : DetailState :=
  { campaign := none
    loading := false
    donationAmount := amount
    donating := false
    donationSuccess := false
    error := none }

/-- A page with a wallet installed, before the provider component mounts. -/
def walletPage : Page :=
  { ethereum := some { listeners := [] }, functionCount := 0 }

/-- The details of a campaign created by `0xAbCd` that has raised 1500 of a goal
of 1000. -/
def fundedDetails : CampaignDetails :=
  sampleDetails "Lab" 1000 1500 1800000000 "0xAbCd" false

/-- A campaign created by `0xAbCd` that has reached its goal, fetched with the
account `0xabcd` connected. -/
def fundedOwnCampaign : Campaign :=
  formatCampaignData (some "0xabcd") 1700000000000 fundedDetails 4

/-- A campaign created by `0xAbCd` whose deadline passed below its goal, fetched
with the account `0xabcd` connected. -/
def failedOwnCampaign : Campaign :=
  formatCampaignData (some "0xabcd") 1700000000000
    (sampleDetails "Books" 1000 10 1600000000 "0xAbCd" false) 5

/-- A lower-casing of free text that knows the letters `A`-`Z` and `É`. -/
def sampleLower (s : String) : String :=
  ⟨s.data.map fun ch => if ch = 'É' then 'é' else ch.toLower⟩

/-- A campaign whose title starts with a lower-case `é`. -/
def schoolCampaign : Campaign :=
  formatCampaignData none 1700000000000
    (sampleDetails "école du Lab" 500 20 1800000000 "0xAbCd" false) 4

/-! ## Properties of `numberOfBigInt` -/

/-- Below `2 ^ 53` no bit is dropped. -/
theorem droppedBits_of_lt (fuel n : Nat) (h : n < 2 ^ 53) : droppedBits fuel n = 0 := by
  cases fuel with
  | zero => rfl
  | succ k =>
    unfold droppedBits
    rw [if_pos h]

/-- Below `2 ^ 53` the conversion `Number(n)` is exact. -/
theorem numberOfBigInt_of_lt (n : Nat) (h : n < 2 ^ 53) : numberOfBigInt n = n := by
  unfold numberOfBigInt
  rw [droppedBits_of_lt 971 n h]
  unfold roundToMultiple
  simp [Nat.mod_one]

/-- From `2 ^ 53` on, at least one bit is dropped and at least 53 are kept. -/
theorem droppedBits_div_ge (fuel n : Nat) (h : 2 ^ 53 ≤ n) :
    2 ^ 52 ≤ n / 2 ^ droppedBits fuel n := by
  induction fuel generalizing n with
  | zero =>
    have : (2:ℕ) ^ 52 ≤ 2 ^ 53 := by norm_num
    simpa [droppedBits] using le_trans this h
  | succ k ih =>
    unfold droppedBits
    rw [if_neg (not_lt.mpr h)]
    rw [show n / 2 ^ (droppedBits k (n / 2) + 1) = n / 2 / 2 ^ droppedBits k (n / 2) by
      rw [pow_succ, mul_comm, Nat.div_div_eq_div_mul]]
    by_cases h2 : 2 ^ 53 ≤ n / 2
    · exact ih (n / 2) h2
    · rw [droppedBits_of_lt k (n / 2) (not_le.mp h2)]
      simp only [pow_zero, Nat.div_one]
      omega

/-- With enough fuel the search ends: at most 53 significant bits are kept. -/
theorem droppedBits_div_lt (fuel n : Nat) (h : n < 2 ^ fuel * 2 ^ 53) :
    n / 2 ^ droppedBits fuel n < 2 ^ 53 := by
  induction fuel generalizing n with
  | zero => simpa [droppedBits] using h
  | succ k ih =>
    unfold droppedBits
    split_ifs with hn
    · simpa using hn
    · have h2 : n / 2 < 2 ^ k * 2 ^ 53 := by
        rw [Nat.div_lt_iff_lt_mul (by norm_num)]
        rw [pow_succ] at h
        linarith
      have := ih (n / 2) h2
      rwa [pow_succ, mul_comm, ← Nat.div_div_eq_div_mul]

/-- The rounded value is within half a unit of the last kept place, and is a
multiple of that unit. -/
theorem roundToMultiple_near (e n : Nat) :
    2 * roundToMultiple e n ≤ 2 * n + 2 ^ e ∧ 2 * n ≤ 2 * roundToMultiple e n + 2 ^ e
      ∧ n / 2 ^ e * 2 ^ e ≤ roundToMultiple e n := by
  have hdiv := Nat.div_add_mod n (2 ^ e)
  have hmod := Nat.mod_lt n (show 0 < 2 ^ e by positivity)
  rw [mul_comm] at hdiv
  unfold roundToMultiple
  generalize 2 ^ e = m at *
  generalize n / m = d at *
  generalize n % m = r at *
  split_ifs with h1 h2
  · refine ⟨?_, ?_, ?_⟩ <;> omega
  · rw [add_mul]
    refine ⟨?_, ?_, ?_⟩ <;> omega
  · rw [add_mul]
    rcases Nat.mod_two_eq_zero_or_one d with h | h <;> rw [h] <;>
      refine ⟨?_, ?_, ?_⟩ <;> omega

/-- The value `Number(n)` reaches 100 exactly when `n` does. -/
theorem numberOfBigInt_ge_hundred_iff (n : Nat) : 100 ≤ numberOfBigInt n ↔ 100 ≤ n := by
  by_cases h : n < 2 ^ 53
  · rw [numberOfBigInt_of_lt n h]
  · have h1 := droppedBits_div_ge 971 n (not_lt.mp h)
    have h2 := (roundToMultiple_near (droppedBits 971 n) n).2.2
    have h3 : 1 ≤ 2 ^ droppedBits 971 n := Nat.one_le_two_pow
    have h4 : 2 ^ 52 ≤ numberOfBigInt n := by
      unfold numberOfBigInt
      calc 2 ^ 52 ≤ n / 2 ^ droppedBits 971 n * 1 := by omega
        _ ≤ n / 2 ^ droppedBits 971 n * 2 ^ droppedBits 971 n := Nat.mul_le_mul_left _ h3
        _ ≤ _ := h2
    have h5 : (100:ℕ) ≤ 2 ^ 52 := by norm_num
    have h6 : (100:ℕ) ≤ 2 ^ 53 := by norm_num
    constructor
    · intro _
      omega
    · intro _
      omega

/-- The value `Number(n)` differs from `n` by at most `n / 2 ^ 53`. -/
theorem numberOfBigInt_near (n : Nat) :
    numberOfBigInt n ≤ n + n / 2 ^ 53 ∧ n ≤ numberOfBigInt n + n / 2 ^ 53 := by
  by_cases h : n < 2 ^ 53
  · rw [numberOfBigInt_of_lt n h]
    omega
  · have h0 := not_lt.mp h
    have h1 := droppedBits_div_ge 971 n h0
    obtain ⟨h2, h3, -⟩ := roundToMultiple_near (droppedBits 971 n) n
    have h4 : 2 ^ droppedBits 971 n * 2 ^ 52 ≤ n := by
      calc 2 ^ droppedBits 971 n * 2 ^ 52 ≤ 2 ^ droppedBits 971 n * (n / 2 ^ droppedBits 971 n) :=
            Nat.mul_le_mul_left _ h1
        _ ≤ n := Nat.mul_div_le n _
    have h5 : 2 ^ droppedBits 971 n ≤ 2 * (n / 2 ^ 53) := by
      have hd : droppedBits 971 n = droppedBits 970 (n / 2) + 1 := by
        rw [droppedBits, if_neg h]
      rw [hd, pow_succ] at h4 ⊢
      have : 2 ^ droppedBits 970 (n / 2) ≤ n / 2 ^ 53 := by
        rw [Nat.le_div_iff_mul_le (by positivity)]
        omega
      omega
    unfold numberOfBigInt
    omega
/-! ## Properties of `formatCampaignData` -/

/-- C1: `canWithdraw` is truthy exactly when an account is connected and equals
the creator ignoring letter case, and the campaign is expired or fully funded,
and the campaign is not closed; in every other combination it is falsy. -/
theorem canWithdraw_truthy_iff (account : Option String) (nowMs : Nat)
    (details : CampaignDetails) (id : Nat) :
    (formatCampaignData account nowMs details id).canWithdraw.truthy = true ↔
      (accountTruthy account = true
          ∧ ∃ a, account = some a ∧ toLowerCase a = toLowerCase details.creator)
        ∧ ((formatCampaignData account nowMs details id).isExpired = true
          ∨ (formatCampaignData account nowMs details id).isFullyFunded = true)
        ∧ (formatCampaignData account nowMs details id).isClosed = false := by
  cases account with
  | none => simp [formatCampaignData, JsValue.truthy, accountTruthy]
  | some a =>
    by_cases ha : a = ""
    · simp [formatCampaignData, JsValue.truthy, accountTruthy, ha]
    · simp [formatCampaignData, JsValue.truthy, accountTruthy, ha, and_assoc]

/-- C2 fails as stated: with a goal of 0 the raised amount is at least the goal,
yet `isFullyFunded` is false. -/
theorem isFullyFunded_false_at_zero_goal :
    (sampleDetails "Zero" 0 5 2000000000 "0xAbCd" false).raised
        ≥ (sampleDetails "Zero" 0 5 2000000000 "0xAbCd" false).goal
      ∧ (formatCampaignData none 1700000000000
          (sampleDetails "Zero" 0 5 2000000000 "0xAbCd" false) 1).isFullyFunded = false := by
  decide

/-- C2, amended: for a positive goal, raised ≥ goal gives `isFullyFunded = true`
whatever the deadline and the current time. -/
theorem isFullyFunded_of_raised_ge_goal (account : Option String) (nowMs : Nat)
    (details : CampaignDetails) (id : Nat)
    (hgoal : 0 < details.goal) (hraised : details.raised ≥ details.goal) :
    (formatCampaignData account nowMs details id).isFullyFunded = true := by
  have h : 100 ≤ details.raised * 100 / details.goal := by
    rw [Nat.le_div_iff_mul_le hgoal]
    nlinarith
  simp [formatCampaignData, hgoal, numberOfBigInt_ge_hundred_iff, h]

/-- The amended C2 at a campaign that has raised exactly its goal and whose
deadline has passed. -/
theorem isFullyFunded_of_raised_ge_goal_witness :
    (formatCampaignData (some "0xabcd") 1700000000000
      (sampleDetails "Lab" 100 100 1600000000 "0xAbCd" false) 7).isFullyFunded = true :=
  isFullyFunded_of_raised_ge_goal (some "0xabcd") 1700000000000
    (sampleDetails "Lab" 100 100 1600000000 "0xAbCd" false) 7 (by decide) (by decide)

/-! ## Properties of `fetchCampaigns` -/

/-- The ids pushed by the settled reads of `l` are the ids of `l` whose read
resolved, in the same order. -/
theorem map_id_filterMap_settleRead (c : Contract) (account : Option String)
    (settledAt : Nat → Nat) (l : List Nat) :
    (l.filterMap (settleRead c account settledAt)).map (fun x => x.id)
      = l.filter (fun i => (c.getCampaignDetails i).toBool) := by
  induction l with
  | nil => rfl
  | cons i l ih =>
    cases h : c.getCampaignDetails i with
    | error e => simp [List.filterMap_cons, settleRead, h, Except.toBool, ih]
    | ok d => simp [List.filterMap_cons, settleRead, h, Except.toBool, ih, formatCampaignData]

/-- The ids in the list stored by a fetch whose count read gave `n`. -/
theorem fetchCampaigns_ids_perm (c : Contract) (account : Option String)
    (settledAt : Nat → Nat) (doneMs : Nat) (s : ListState) (n : Nat)
    (hcount : c.getCampaignCount = .ok n) :
    ((fetchCampaigns (some c) account settledAt doneMs s).1.campaigns.map (fun x => x.id)).Perm
      ((List.range' 1 n).filter (fun i => (c.getCampaignDetails i).toBool)) := by
  simp only [fetchCampaigns, hcount, map_id_filterMap_settleRead]
  exact (List.perm_insertionSort _ _).filter _

/-- C4: when the count read gives `n`, the stored list has exactly one entry for
each id in `[1, n]` whose detail read resolved and none for any other id, and
no list-level error is set. -/
theorem fetchCampaigns_skips_failed_reads (c : Contract) (account : Option String)
    (settledAt : Nat → Nat) (doneMs : Nat) (s : ListState) (n : Nat)
    (hcount : c.getCampaignCount = .ok n) :
    (fetchCampaigns (some c) account settledAt doneMs s).1.error = none
      ∧ ∀ i : Nat,
        ((fetchCampaigns (some c) account settledAt doneMs s).1.campaigns.map
            (fun x => x.id)).count i
          = if 1 ≤ i ∧ i ≤ n ∧ (c.getCampaignDetails i).toBool = true then 1 else 0 := by
  refine ⟨by simp [fetchCampaigns, hcount], fun i => ?_⟩
  rw [(fetchCampaigns_ids_perm c account settledAt doneMs s n hcount).count_eq]
  have hnd : ((List.range' 1 n).filter (fun i => (c.getCampaignDetails i).toBool)).Nodup :=
    (List.nodup_range' 1 n).filter _
  by_cases h : 1 ≤ i ∧ i ≤ n ∧ (c.getCampaignDetails i).toBool = true
  · rw [if_pos h]
    apply List.count_eq_one_of_mem hnd
    simp only [List.mem_filter, List.mem_range'_1]
    exact ⟨⟨h.1, by omega⟩, h.2.2⟩
  · rw [if_neg h]
    apply List.count_eq_zero_of_not_mem
    simp only [List.mem_filter, List.mem_range'_1]
    intro hmem
    apply h
    refine ⟨hmem.1.1, ?_, hmem.2⟩
    omega

/-- C4 at five campaigns with the read of id 3 failing: four entries, with ids
1, 2, 4 and 5, and no error. -/
theorem fetchCampaigns_skips_failed_reads_witness :
    ((fetchCampaigns (some fiveWithThirdFailing) none (fun i => 50 - i) 60
        initialState).1.campaigns.map (fun x => x.id)) = [5, 4, 2, 1]
      ∧ ((fetchCampaigns (some fiveWithThirdFailing) none (fun i => 50 - i) 60
          initialState).1.error = none
        ∧ ∀ i : Nat,
          ((fetchCampaigns (some fiveWithThirdFailing) none (fun i => 50 - i) 60
              initialState).1.campaigns.map (fun x => x.id)).count i
            = if 1 ≤ i ∧ i ≤ 5 ∧ (fiveWithThirdFailing.getCampaignDetails i).toBool = true
              then 1 else 0) :=
  ⟨by decide,
    fetchCampaigns_skips_failed_reads fiveWithThirdFailing none (fun i => 50 - i) 60
      initialState 5 rfl⟩

/-! ## Properties of `arraySort` -/

/-- An insertion that returns yields a permutation. -/
theorem orderedInsertM_perm {α : Type} (cmp : α → α → JsNumeric) (a : α) :
    ∀ (l r : List α), orderedInsertM cmp a l = .ok r → r.Perm (a :: l)
  | [], r, h => by
    simp only [orderedInsertM, Except.ok.injEq] at h
    subst h
    exact List.Perm.refl _
  | b :: l, r, h => by
    simp only [orderedInsertM] at h
    cases hv : toNumber (cmp a b) with
    | error e => simp [hv] at h
    | ok v =>
      simp only [hv] at h
      by_cases hle : v ≤ 0
      · simp only [hle, if_true, Except.ok.injEq] at h
        subst h
        exact List.Perm.refl _
      · simp only [hle, if_false] at h
        cases hr : orderedInsertM cmp a l with
        | error e => simp [hr] at h
        | ok r' =>
          simp only [hr, Except.ok.injEq] at h
          subst h
          exact ((orderedInsertM_perm cmp a l r' hr).cons b).trans (List.Perm.swap a b l)

/-- A sort that returns yields a permutation of its input. -/
theorem arraySort_perm {α : Type} (cmp : α → α → JsNumeric) :
    ∀ (l r : List α), arraySort cmp l = .ok r → r.Perm l
  | [], r, h => by
    simp only [arraySort, Except.ok.injEq] at h
    subst h
    exact List.Perm.refl _
  | a :: l, r, h => by
    simp only [arraySort] at h
    cases hr : arraySort cmp l with
    | error e => simp [hr] at h
    | ok r' =>
      simp only [hr] at h
      exact (orderedInsertM_perm cmp a r' r h).trans ((arraySort_perm cmp l r' hr).cons a)

/-- With a comparator whose results convert to Numbers, the sign test `v ≤ 0`
on which is the relation `r`, an insertion is the ordered insertion for `r`. -/
theorem orderedInsertM_of_le {α : Type} (cmp : α → α → JsNumeric) (r : α → α → Prop)
    [DecidableRel r] (h : ∀ x y, ∃ v, toNumber (cmp x y) = .ok v ∧ (v ≤ 0 ↔ r x y))
    (a : α) (l : List α) :
    orderedInsertM cmp a l = .ok (List.orderedInsert r a l) := by
  induction l with
  | nil => rfl
  | cons b l ih =>
    obtain ⟨n, hn, hiff⟩ := h a b
    by_cases hr : r a b
    · simp [orderedInsertM, hn, List.orderedInsert, hr, hiff.mpr hr]
    · have hn0 : ¬ n ≤ 0 := fun hle => hr (hiff.mp hle)
      simp [orderedInsertM, hn, List.orderedInsert, hr, hn0, ih]

/-- With a comparator whose results convert to Numbers, the sort returns the
stable insertion sort for the relation `r` the comparator induces. -/
theorem arraySort_of_le {α : Type} (cmp : α → α → JsNumeric) (r : α → α → Prop)
    [DecidableRel r] (h : ∀ x y, ∃ v, toNumber (cmp x y) = .ok v ∧ (v ≤ 0 ↔ r x y))
    (l : List α) :
    arraySort cmp l = .ok (List.insertionSort r l) := by
  induction l with
  | nil => rfl
  | cons a l ih => simp [arraySort, ih, orderedInsertM_of_le cmp r h, List.insertionSort]

/-- With a comparator that returns BigInts, the sort throws as soon as the
array has two elements, and returns shorter arrays unchanged. -/
theorem arraySort_bigint {α : Type} (cmp : α → α → JsNumeric)
    (h : ∀ x y, ∃ n, cmp x y = .bigint n) (l : List α) :
    (2 ≤ l.length ∧
        arraySort cmp l = .error (.typeError "Cannot convert a BigInt value to a number"))
      ∨ (l.length ≤ 1 ∧ arraySort cmp l = .ok l) := by
  induction l with
  | nil => right; exact ⟨by simp, rfl⟩
  | cons a l ih =>
    rcases ih with ⟨hlen, herr⟩ | ⟨hlen, hok⟩
    · left
      refine ⟨by simp; omega, ?_⟩
      simp [arraySort, herr]
    · match l, hlen, hok with
      | [], _, hok => right; exact ⟨by simp, by simp [arraySort, orderedInsertM]⟩
      | [b], _, hok =>
        left
        obtain ⟨n, hn⟩ := h a b
        refine ⟨by simp, ?_⟩
        simp [arraySort, orderedInsertM, hn, toNumber]

/-- With a comparator whose results all convert to Numbers, the sort returns
the stable insertion sort for `sortsBefore`. -/
theorem arraySort_of_ok {α : Type} (cmp : α → α → JsNumeric)
    (h : ∀ x y, ∃ v, toNumber (cmp x y) = .ok v) (l : List α) :
    arraySort cmp l = .ok (List.insertionSort (fun a b => sortsBefore cmp a b = true) l) := by
  apply arraySort_of_le
  intro x y
  obtain ⟨v, hv⟩ := h x y
  exact ⟨v, hv, by simp [sortsBefore, hv]⟩

/-- An ordered insertion depends on the relation between the inserted element
and the elements of the list only. -/
theorem orderedInsert_congr {α : Type} (r s : α → α → Prop) [DecidableRel r] [DecidableRel s]
    (a : α) (l : List α) (h : ∀ b ∈ l, r a b ↔ s a b) :
    List.orderedInsert r a l = List.orderedInsert s a l := by
  induction l with
  | nil => rfl
  | cons b l ih =>
    have hb := h b (List.mem_cons_self b l)
    have ih2 := ih fun c hc => h c (List.mem_cons_of_mem b hc)
    by_cases hr : r a b
    · simp [List.orderedInsert, hr, hb.mp hr]
    · have hs : ¬ s a b := fun hs => hr (hb.mpr hs)
      simp [List.orderedInsert, hr, hs, ih2]

/-- An insertion sort depends on the relation between the elements of the list
only. -/
theorem insertionSort_congr {α : Type} (r s : α → α → Prop) [DecidableRel r] [DecidableRel s]
    (l : List α) (h : ∀ a ∈ l, ∀ b ∈ l, r a b ↔ s a b) :
    List.insertionSort r l = List.insertionSort s l := by
  induction l with
  | nil => rfl
  | cons a l ih =>
    have ih2 := ih fun x hx y hy => h x (List.mem_cons_of_mem a hx) y (List.mem_cons_of_mem a hy)
    rw [List.insertionSort, List.insertionSort, ih2]
    apply orderedInsert_congr
    intro b hb
    exact h a (List.mem_cons_self a l) b
      (List.mem_cons_of_mem a ((List.perm_insertionSort s l).mem_iff.mp hb))

/-- An ordered insertion for a total relation keeps neighbours related. -/
theorem orderedInsert_chain {α : Type} (r : α → α → Prop) [DecidableRel r]
    (htotal : ∀ a b, r a b ∨ r b a) (a : α) :
    ∀ l : List α, List.Chain' r l → List.Chain' r (List.orderedInsert r a l)
  | [], _ => List.chain'_singleton a
  | b :: l, h => by
    by_cases hab : r a b
    · rw [List.orderedInsert, if_pos hab]
      exact List.Chain'.cons hab h
    · rw [List.orderedInsert, if_neg hab]
      have hba : r b a := (htotal a b).resolve_left hab
      refine List.Chain'.cons' (orderedInsert_chain r htotal a l h.tail) ?_
      intro y hy
      cases l with
      | nil =>
        simp only [List.orderedInsert, List.head?_cons, Option.mem_def,
          Option.some.injEq] at hy
        rw [← hy]
        exact hba
      | cons c l' =>
        by_cases hac : r a c
        · simp only [List.orderedInsert, hac, if_true, List.head?_cons, Option.mem_def,
            Option.some.injEq] at hy
          rw [← hy]
          exact hba
        · simp only [List.orderedInsert, hac, if_false, List.head?_cons, Option.mem_def,
            Option.some.injEq] at hy
          rw [← hy]
          exact (List.chain'_cons.mp h).1

/-- The insertion sort for a total relation returns a list whose neighbours are
related. -/
theorem insertionSort_chain {α : Type} (r : α → α → Prop) [DecidableRel r]
    (htotal : ∀ a b, r a b ∨ r b a) (l : List α) :
    List.Chain' r (List.insertionSort r l) := by
  induction l with
  | nil => exact List.chain'_nil
  | cons a l ih => exact orderedInsert_chain r htotal a _ ih

/-- The insertion sort returns a list whose neighbours are related unchanged. -/
theorem insertionSort_eq_of_chain {α : Type} (r : α → α → Prop) [DecidableRel r] :
    ∀ l : List α, List.Chain' r l → List.insertionSort r l = l
  | [], _ => rfl
  | [a], _ => rfl
  | a :: b :: l, h => by
    rw [List.insertionSort, insertionSort_eq_of_chain r (b :: l) h.tail,
      List.orderedInsert, if_pos (List.chain'_cons.mp h).1]

/-- Stability of the insertion sort: elements that are pairwise tied under `r`
keep their relative order. -/
theorem filter_insertionSort_of_tied {α : Type} (r : α → α → Prop) [DecidableRel r]
    (p : α → Bool) (hp : ∀ a b, p a = true → p b = true → r a b) (l : List α) :
    (List.insertionSort r l).filter p = l.filter p := by
  have hpw : (l.filter p).Pairwise r :=
    List.pairwise_of_forall_mem_list fun a ha b hb =>
      hp a b (List.mem_filter.mp ha).2 (List.mem_filter.mp hb).2
  have hsub : (l.filter p).Sublist (List.insertionSort r l) :=
    List.sublist_insertionSort hpw (List.filter_sublist l)
  have hsub2 : (l.filter p).Sublist ((List.insertionSort r l).filter p) := by
    have := hsub.filter p
    simpa [List.filter_filter] using this
  have hlen : (l.filter p).length = ((List.insertionSort r l).filter p).length :=
    (((List.perm_insertionSort r l).filter p).length_eq).symm
  exact (hsub2.eq_of_length hlen).symm

/-! ## Properties of the sort stage -/

/-- Every difference of two `Date` objects converts to a Number. -/
theorem toNumber_sub_ok (x y : JsDate) : ∃ v, toNumber (x.sub y) = .ok v := by
  cases x <;> cases y <;> exact ⟨_, rfl⟩

/-- The `newest` sort returns the insertion sort for its comparator. -/
theorem arraySort_compareNewest (l : List Campaign) :
    arraySort compareNewest l
      = .ok (List.insertionSort (fun a b => sortsBefore compareNewest a b = true) l) :=
  arraySort_of_ok compareNewest (fun _ _ => toNumber_sub_ok _ _) l

/-- The `oldest` sort returns the insertion sort for its comparator. -/
theorem arraySort_compareOldest (l : List Campaign) :
    arraySort compareOldest l
      = .ok (List.insertionSort (fun a b => sortsBefore compareOldest a b = true) l) :=
  arraySort_of_ok compareOldest (fun _ _ => toNumber_sub_ok _ _) l

/-- Of two `Date` objects, one difference or the opposite one is at most 0 for
the sort. -/
theorem sortsBefore_sub_total (x y : JsDate) :
    sortsBefore JsDate.sub x y = true ∨ sortsBefore JsDate.sub y x = true := by
  cases x <;> cases y <;> simp [sortsBefore, JsDate.sub, toNumber]
  omega

/-- On valid `Date` objects the sort takes `x` to come no later than `y` for
the difference `x - y` exactly when the time value of `x` is at most that of
`y`. -/
theorem sortsBefore_sub_valid (x y : Int) :
    sortsBefore JsDate.sub (.valid x) (.valid y) = true ↔ x ≤ y := by
  simp [sortsBefore, JsDate.sub, toNumber]

/-- A sort of elements that all carry a valid `Date`, with a comparator whose
sign test is the total preorder `le` on the time values, returns the elements
ordered by `le`, those with the same `Date` in their prior relative order. -/
theorem arraySort_of_valid {α : Type} (cmp : α → α → JsNumeric) (date : α → JsDate)
    (le : Int → Int → Prop) [DecidableRel le]
    (htotal : ∀ x y, le x y ∨ le y x) (htrans : ∀ x y z, le x y → le y z → le x z)
    (hok : ∀ a b, ∃ v, toNumber (cmp a b) = .ok v)
    (hcmp : ∀ a b x y, date a = .valid x → date b = .valid y →
      (sortsBefore cmp a b = true ↔ le x y))
    (l : List α) (hvalid : ∀ c ∈ l, ∃ ms, date c = .valid ms) :
    ∃ r, arraySort cmp l = .ok r ∧ r.Perm l
      ∧ r.Pairwise (fun a b => ∃ x y, date a = .valid x ∧ date b = .valid y ∧ le x y)
      ∧ ∀ k : JsDate, r.filter (fun c => decide (date c = k))
          = l.filter (fun c => decide (date c = k)) := by
  have htime : ∃ time : α → Int,
      ∀ c, (∃ ms, date c = .valid ms) → date c = .valid (time c) := by
    refine ⟨fun c => match date c with | .valid x => x | .invalid => 0, ?_⟩
    rintro c ⟨ms, hms⟩
    simp only [hms]
  obtain ⟨time, htime⟩ := htime
  have hl : ∀ c ∈ l, date c = .valid (time c) := fun c hc => htime c (hvalid c hc)
  have hsort : arraySort cmp l = .ok (List.insertionSort (fun a b => le (time a) (time b)) l) := by
    rw [arraySort_of_ok cmp hok,
      insertionSort_congr _ (fun a b => le (time a) (time b)) l
        (fun a ha b hb => hcmp a b _ _ (hl a ha) (hl b hb))]
  have hperm := List.perm_insertionSort (fun a b => le (time a) (time b)) l
  have hsorted := @List.sorted_insertionSort α (fun a b => le (time a) (time b)) _
    ⟨fun a b => htotal _ _⟩ ⟨fun a b c => htrans _ _ _⟩ l
  refine ⟨_, hsort, hperm, ?_, fun k => ?_⟩
  · refine List.Pairwise.imp_of_mem ?_ hsorted
    intro a b ha hb hab
    exact ⟨time a, time b, hl a (hperm.mem_iff.mp ha), hl b (hperm.mem_iff.mp hb), hab⟩
  · cases k with
    | invalid =>
      have hnone : ∀ l' : List α, (∀ c ∈ l', c ∈ l) →
          l'.filter (fun c => decide (date c = .invalid)) = [] := by
        intro l' hl'
        rw [List.filter_eq_nil_iff]
        intro c hc
        simp [hl c (hl' c hc)]
      rw [hnone _ (fun c hc => hperm.mem_iff.mp hc), hnone l (fun c hc => hc)]
    | valid ms =>
      refine filter_insertionSort_of_tied _ _ (fun a b ha hb => ?_) l
      simp only [decide_eq_true_eq] at ha hb
      have h1 := htime a ⟨ms, ha⟩
      have h2 := htime b ⟨ms, hb⟩
      rw [ha, JsDate.valid.injEq] at h1
      rw [hb, JsDate.valid.injEq] at h2
      rw [← h1, ← h2]
      exact (htotal ms ms).elim id id

/-- The `ending-soon` sort returns the insertion sort for: expired after
non-expired, and by deadline within each group. -/
theorem arraySort_compareEndingSoon (l : List Campaign) :
    arraySort compareEndingSoon l
      = .ok (List.insertionSort
          (fun a b : Campaign => (a.isExpired = true → b.isExpired = true)
            ∧ (a.isExpired = b.isExpired → a.deadlineTimestamp ≤ b.deadlineTimestamp)) l) := by
  apply arraySort_of_le
  intro x y
  unfold compareEndingSoon
  cases hx : x.isExpired <;> cases hy : y.isExpired <;> simp [toNumber]

/-- The `most-funded` sort throws on two or more campaigns. -/
theorem arraySort_compareMostFunded (l : List Campaign) :
    (2 ≤ l.length ∧
        arraySort compareMostFunded l
          = .error (.typeError "Cannot convert a BigInt value to a number"))
      ∨ (l.length ≤ 1 ∧ arraySort compareMostFunded l = .ok l) :=
  arraySort_bigint compareMostFunded (fun _ _ => ⟨_, rfl⟩) l

/-- A sort stage that returns yields a permutation of the filtered list. -/
theorem applySort_perm (sortBy : String) (l r : List Campaign)
    (h : applySort sortBy l = .ok r) : r.Perm l := by
  unfold applySort at h
  split_ifs at h <;> exact arraySort_perm _ _ _ h

/-- Every sort key other than `most-funded` makes the sort stage return. -/
theorem applySort_ok_of_ne (sortBy : String) (l : List Campaign)
    (h : sortBy ≠ "most-funded") : ∃ r, applySort sortBy l = .ok r := by
  unfold applySort
  rw [if_neg h]
  split_ifs
  · exact ⟨_, arraySort_compareEndingSoon l⟩
  · exact ⟨_, arraySort_compareNewest l⟩
  · exact ⟨_, arraySort_compareOldest l⟩
  · exact ⟨_, arraySort_compareNewest l⟩

/-! ## Properties of `trim` and `toLowerCase` -/

/-- Lower-casing a character does not change whether it is white space. -/
theorem isWhiteSpace_toLower (ch : Char) : isWhiteSpace ch.toLower = isWhiteSpace ch := by
  unfold Char.toLower
  by_cases h : ch.toNat ≥ 65 ∧ ch.toNat ≤ 90
  · simp only [h, and_self, if_true]
    unfold isWhiteSpace
    generalize ch.toNat = n at h ⊢
    obtain ⟨h1, h2⟩ := h
    interval_cases n <;> decide
  · simp only [h, if_false]

/-- A string built from a list is non-empty exactly when the list is. -/
theorem string_mk_ne_empty (l : List Char) : (String.mk l ≠ "") ↔ l ≠ [] := by
  constructor
  · intro h hl
    exact h (by rw [hl])
  · intro h hl
    exact h (congrArg String.data hl)

/-- The trimmed string is non-empty exactly when the string has a character
that is not white space. -/
theorem trim_ne_empty_iff (s : String) :
    trim s ≠ "" ↔ ∃ ch ∈ s.data, isWhiteSpace ch = false := by
  unfold trim
  rw [string_mk_ne_empty, Ne, List.rdropWhile_eq_nil_iff]
  constructor
  · intro h
    by_contra hall
    apply h
    intro x hx
    have hx' : x ∈ s.data := (List.dropWhile_sublist _).subset hx
    by_contra hpx
    exact hall ⟨x, hx', by simpa using hpx⟩
  · rintro ⟨ch, hch, hws⟩ hall
    have hsplit := List.takeWhile_append_dropWhile isWhiteSpace s.data
    rw [← hsplit, List.mem_append] at hch
    rcases hch with hch | hch
    · have := List.mem_takeWhile_imp hch
      simp [hws] at this
    · have := hall ch hch
      simp [hws] at this

/-- Lower-casing does not change whether a string is blank. -/
theorem trim_toLowerCase_ne_empty_iff (s : String) :
    trim (toLowerCase s) ≠ "" ↔ trim s ≠ "" := by
  rw [trim_ne_empty_iff, trim_ne_empty_iff]
  simp only [toLowerCase, List.mem_map]
  constructor
  · rintro ⟨ch, ⟨x, hx, rfl⟩, hws⟩
    exact ⟨x, hx, by rwa [isWhiteSpace_toLower] at hws⟩
  · rintro ⟨x, hx, hws⟩
    exact ⟨x.toLower, ⟨x, hx, rfl⟩, by rwa [isWhiteSpace_toLower]⟩

/-! ## Properties of `filteredCampaigns` -/

/-- A pipeline that returns yields a permutation of the campaigns that pass the
search and the status filter. -/
theorem filteredCampaigns_perm (lower : String → String) (campaigns : List Campaign)
    (filter sortBy searchTerm : String)
    (account : Option String) (r : List Campaign)
    (h : filteredCampaigns lower campaigns filter sortBy searchTerm account = .ok r) :
    r.Perm (applyFilter filter account (applySearch lower searchTerm campaigns)) :=
  applySort_perm sortBy _ r h

/-- Every sort key other than `most-funded` makes the pipeline return. -/
theorem filteredCampaigns_ok_of_ne (lower : String → String) (campaigns : List Campaign)
    (filter sortBy searchTerm : String) (account : Option String)
    (h : sortBy ≠ "most-funded") :
    ∃ r, filteredCampaigns lower campaigns filter sortBy searchTerm account = .ok r :=
  applySort_ok_of_ne sortBy _ h

/-- A blank search term leaves the list as it is. -/
theorem applySearch_blank (lower : String → String) (searchTerm : String)
    (campaigns : List Campaign)
    (h : trim searchTerm = "") : applySearch lower searchTerm campaigns = campaigns := by
  simp [applySearch, h]

/-- A non-blank search term keeps the campaigns whose lower-cased title or
description contains the lower-cased term. -/
theorem mem_applySearch_iff (lower : String → String) (searchTerm : String)
    (h : trim searchTerm ≠ "") (campaigns : List Campaign) (c : Campaign) :
    c ∈ applySearch lower searchTerm campaigns ↔
      c ∈ campaigns ∧ ((lower searchTerm).data <:+: (lower c.title).data
        ∨ (lower searchTerm).data <:+: (lower c.description).data) := by
  simp [applySearch, h, includes, List.mem_filter]

/-- The status filter only drops campaigns. -/
theorem mem_of_mem_applyFilter (filter : String) (account : Option String)
    (l : List Campaign) (x : Campaign) (h : x ∈ applyFilter filter account l) : x ∈ l := by
  unfold applyFilter at h
  split_ifs at h
  · exact (List.mem_filter.mp h).1
  · exact (List.mem_filter.mp h).1
  · exact (List.mem_filter.mp h).1
  · exact (List.mem_filter.mp h).1
  · exact (List.mem_filter.mp h).1
  · exact h

/-- The search only drops campaigns. -/
theorem mem_of_mem_applySearch (lower : String → String) (searchTerm : String)
    (l : List Campaign) (x : Campaign) (h : x ∈ applySearch lower searchTerm l) : x ∈ l := by
  unfold applySearch at h
  split_ifs at h
  · exact (List.mem_filter.mp h).1
  · exact h

/-- C3 on the code: with sort key `most-funded`, two campaigns that have raised
10^20 and 10^21 base units make the pipeline throw a `TypeError` instead of
returning them ordered by raised amount. -/
theorem mostFunded_throws_on_large_raised :
    filteredCampaigns toLowerCase largeRaised "all" "most-funded" "" none
      = .error (.typeError "Cannot convert a BigInt value to a number") := by
  decide

/-- C5: a campaign whose deadline is before the current time (in whole seconds)
and that is not closed gets `isExpired = true`, and no list the pipeline returns
under filter `active` contains it, for every search term and sort key (the
pipeline returns for every sort key other than `most-funded`). -/
theorem expired_excluded_from_active (account : Option String) (nowMs : Nat)
    (details : CampaignDetails) (id : Nat)
    (hpast : details.deadline < nowMs / 1000) (hopen : details.isClosed = false)
    (lower : String → String) (campaigns : List Campaign) (sortBy searchTerm : String)
    (viewer : Option String) :
    (formatCampaignData account nowMs details id).isExpired = true
      ∧ (formatCampaignData account nowMs details id).isClosed = false
      ∧ (∀ r, filteredCampaigns lower campaigns "active" sortBy searchTerm viewer = .ok r →
          formatCampaignData account nowMs details id ∉ r)
      ∧ (sortBy ≠ "most-funded" →
          ∃ r, filteredCampaigns lower campaigns "active" sortBy searchTerm viewer = .ok r) := by
  have hexp : (formatCampaignData account nowMs details id).isExpired = true := by
    simp [formatCampaignData, hpast]
  refine ⟨hexp, by simpa [formatCampaignData] using hopen, ?_,
    filteredCampaigns_ok_of_ne lower campaigns "active" sortBy searchTerm viewer⟩
  intro r hr hmem
  have hin := (filteredCampaigns_perm _ _ _ _ _ _ r hr).mem_iff.mp hmem
  simp [applyFilter, List.mem_filter, hexp] at hin

/-- C5 at a campaign whose deadline passed, in the list of three, under the
default sort and a search term it matches. -/
theorem expired_excluded_from_active_witness :
    (sampleDetails "Books" 1000 10 1600000000 "0xAbCd" false).deadline < 1700000000000 / 1000
      ∧ (filteredCampaigns toLowerCase threeCampaigns "active" "newest" "books" none).map
          (List.map fun c => c.id) = .ok []
      ∧ ((formatCampaignData none 1700000000000
            (sampleDetails "Books" 1000 10 1600000000 "0xAbCd" false) 1).isExpired = true
        ∧ (formatCampaignData none 1700000000000
            (sampleDetails "Books" 1000 10 1600000000 "0xAbCd" false) 1).isClosed = false
        ∧ (∀ r,
            filteredCampaigns toLowerCase threeCampaigns "active" "newest" "books" none
              = .ok r →
            formatCampaignData none 1700000000000
              (sampleDetails "Books" 1000 10 1600000000 "0xAbCd" false) 1 ∉ r)
        ∧ ("newest" ≠ "most-funded" →
            ∃ r, filteredCampaigns toLowerCase threeCampaigns "active" "newest" "books" none
              = .ok r)) :=
  ⟨by decide, by decide,
    expired_excluded_from_active none 1700000000000
      (sampleDetails "Books" 1000 10 1600000000 "0xAbCd" false) 1 (by decide) rfl
      toLowerCase threeCampaigns "newest" "books" none⟩

/-- C6: with a blank search, filter `expired` keeps exactly the campaigns that
are expired or closed and filter `active` exactly those that are neither closed
nor expired; every list the pipeline returns consists of exactly these
campaigns (it returns for every sort key other than `most-funded`). -/
theorem expired_and_active_filters (lower : String → String) (campaigns : List Campaign)
    (sortBy searchTerm : String) (account : Option String) (hblank : trim searchTerm = "") :
    applyFilter "expired" account (applySearch lower searchTerm campaigns)
        = (campaigns.filter fun c => c.isExpired || c.isClosed)
      ∧ applyFilter "active" account (applySearch lower searchTerm campaigns)
        = (campaigns.filter fun c => !c.isClosed && !c.isExpired)
      ∧ (∀ r, filteredCampaigns lower campaigns "expired" sortBy searchTerm account = .ok r →
        r.Perm (campaigns.filter fun c => c.isExpired || c.isClosed))
      ∧ (∀ r, filteredCampaigns lower campaigns "active" sortBy searchTerm account = .ok r →
        r.Perm (campaigns.filter fun c => !c.isClosed && !c.isExpired))
      ∧ (sortBy ≠ "most-funded" →
        (∃ r, filteredCampaigns lower campaigns "expired" sortBy searchTerm account = .ok r)
          ∧ ∃ r, filteredCampaigns lower campaigns "active" sortBy searchTerm account
            = .ok r) := by
  refine ⟨?_, ?_, fun r hr => ?_, fun r hr => ?_, fun hne => ⟨?_, ?_⟩⟩
  · simp [applyFilter, applySearch_blank _ _ _ hblank]
  · simp [applyFilter, applySearch_blank _ _ _ hblank]
  · have h := filteredCampaigns_perm _ _ _ _ _ _ r hr
    simpa [applyFilter, applySearch_blank _ _ _ hblank] using h
  · have h := filteredCampaigns_perm _ _ _ _ _ _ r hr
    simpa [applyFilter, applySearch_blank _ _ _ hblank] using h
  · exact filteredCampaigns_ok_of_ne _ _ _ _ _ _ hne
  · exact filteredCampaigns_ok_of_ne _ _ _ _ _ _ hne

/-- C6 at the three campaigns (expired and not fully funded, active, closed):
`expired` yields the expired one and the closed one, `active` the active one. -/
theorem expired_and_active_filters_witness :
    trim "  " = ""
      ∧ (threeCampaigns.map fun c => (c.id, c.isExpired, c.isFullyFunded, c.isClosed))
          = [(1, true, false, false), (2, false, false, false), (3, false, false, true)]
      ∧ (filteredCampaigns toLowerCase threeCampaigns "expired" "newest" "  " none).map
          (List.map fun c => c.id) = .ok [3, 1]
      ∧ (filteredCampaigns toLowerCase threeCampaigns "active" "newest" "  " none).map
          (List.map fun c => c.id) = .ok [2]
      ∧ (applyFilter "expired" none (applySearch toLowerCase "  " threeCampaigns)
          = (threeCampaigns.filter fun c => c.isExpired || c.isClosed)
        ∧ applyFilter "active" none (applySearch toLowerCase "  " threeCampaigns)
          = (threeCampaigns.filter fun c => !c.isClosed && !c.isExpired)
        ∧ (∀ r,
            filteredCampaigns toLowerCase threeCampaigns "expired" "newest" "  " none = .ok r →
            r.Perm (threeCampaigns.filter fun c => c.isExpired || c.isClosed))
        ∧ (∀ r,
            filteredCampaigns toLowerCase threeCampaigns "active" "newest" "  " none = .ok r →
            r.Perm (threeCampaigns.filter fun c => !c.isClosed && !c.isExpired))
        ∧ ("newest" ≠ "most-funded" →
          (∃ r, filteredCampaigns toLowerCase threeCampaigns "expired" "newest" "  " none = .ok r)
            ∧ ∃ r, filteredCampaigns toLowerCase threeCampaigns "active" "newest" "  " none
              = .ok r)) :=
  ⟨by decide, by decide, by decide, by decide,
    expired_and_active_filters toLowerCase threeCampaigns "newest" "  " none (by decide)⟩

/-- C7: for a search term with a character that is not white space, a campaign
passes the search stage exactly when the lower-cased term is a substring of its
lower-cased title or of its lower-cased description, whatever the lower-casing
`lower` of the engine is; so the outcome is the same for a term (also with a
character that is not white space), title and description that differ from
these only in letter case, which is to say have the same lower-casings. -/
theorem search_is_case_insensitive_substring (lower : String → String) (searchTerm : String)
    (hterm : ∃ ch ∈ searchTerm.data, isWhiteSpace ch = false)
    (campaigns : List Campaign) (c : Campaign) :
    (c ∈ applySearch lower searchTerm campaigns ↔
        c ∈ campaigns ∧ ((lower searchTerm).data <:+: (lower c.title).data
          ∨ (lower searchTerm).data <:+: (lower c.description).data))
      ∧ ∀ (searchTerm' : String) (c' : Campaign),
          (∃ ch ∈ searchTerm'.data, isWhiteSpace ch = false) →
          lower searchTerm' = lower searchTerm →
          lower c'.title = lower c.title →
          lower c'.description = lower c.description →
          (c' ∈ applySearch lower searchTerm' [c'] ↔
            c ∈ applySearch lower searchTerm [c]) := by
  have hne : trim searchTerm ≠ "" := (trim_ne_empty_iff searchTerm).mpr hterm
  refine ⟨mem_applySearch_iff lower searchTerm hne campaigns c, ?_⟩
  intro searchTerm' c' hterm' hs ht hd
  have hne' : trim searchTerm' ≠ "" := (trim_ne_empty_iff searchTerm').mpr hterm'
  rw [mem_applySearch_iff lower searchTerm hne, mem_applySearch_iff lower searchTerm' hne',
    hs, ht, hd]
  simp

/-- C7 with a lower-casing that knows the letter `É`: the term `ÉCOLE` matches
the title `école du Lab`, as does the term `école`; and with the lower-casing of
the letters `A`-`Z` the term `LAB` matches the title `Lab` only. -/
theorem search_is_case_insensitive_substring_witness :
    (∃ ch ∈ "ÉCOLE".data, isWhiteSpace ch = false)
      ∧ (applySearch sampleLower "ÉCOLE" [schoolCampaign]).map (fun c => c.id) = [4]
      ∧ (applySearch sampleLower "école" [schoolCampaign]).map (fun c => c.id) = [4]
      ∧ (applySearch toLowerCase "LAB" threeCampaigns).map (fun c => c.id) = [2]
      ∧ ((schoolCampaign ∈ applySearch sampleLower "ÉCOLE" [schoolCampaign] ↔
            schoolCampaign ∈ [schoolCampaign]
              ∧ ((sampleLower "ÉCOLE").data <:+: (sampleLower schoolCampaign.title).data
                ∨ (sampleLower "ÉCOLE").data
                    <:+: (sampleLower schoolCampaign.description).data))
        ∧ ∀ (searchTerm' : String) (c' : Campaign),
            (∃ ch ∈ searchTerm'.data, isWhiteSpace ch = false) →
            sampleLower searchTerm' = sampleLower "ÉCOLE" →
            sampleLower c'.title = sampleLower schoolCampaign.title →
            sampleLower c'.description = sampleLower schoolCampaign.description →
            (c' ∈ applySearch sampleLower searchTerm' [c'] ↔
              schoolCampaign ∈ applySearch sampleLower "ÉCOLE" [schoolCampaign])) :=
  ⟨⟨'C', by decide, by decide⟩, by decide, by decide, by decide,
    search_is_case_insensitive_substring sampleLower "ÉCOLE" ⟨'C', by decide, by decide⟩
      [schoolCampaign] schoolCampaign⟩

/-- C8: with sort key `ending-soon` the pipeline returns a list in which no
expired campaign comes before a non-expired one and the non-expired campaigns
are in non-decreasing order of deadline timestamp. -/
theorem endingSoon_order (lower : String → String) (campaigns : List Campaign)
    (filter searchTerm : String) (account : Option String) :
    ∃ r, filteredCampaigns lower campaigns filter "ending-soon" searchTerm account = .ok r
      ∧ r.Perm (applyFilter filter account (applySearch lower searchTerm campaigns))
      ∧ r.Pairwise (fun a b => a.isExpired = true → b.isExpired = true)
      ∧ r.Pairwise (fun a b => a.isExpired = false → b.isExpired = false →
          a.deadlineTimestamp ≤ b.deadlineTimestamp) := by
  have hsort := arraySort_compareEndingSoon
    (applyFilter filter account (applySearch lower searchTerm campaigns))
  have hres : filteredCampaigns lower campaigns filter "ending-soon" searchTerm account
      = .ok (List.insertionSort
          (fun a b : Campaign => (a.isExpired = true → b.isExpired = true)
            ∧ (a.isExpired = b.isExpired → a.deadlineTimestamp ≤ b.deadlineTimestamp))
          (applyFilter filter account (applySearch lower searchTerm campaigns))) := by
    simpa [filteredCampaigns, applySort] using hsort
  have hsorted := @List.sorted_insertionSort Campaign
    (fun a b : Campaign => (a.isExpired = true → b.isExpired = true)
      ∧ (a.isExpired = b.isExpired → a.deadlineTimestamp ≤ b.deadlineTimestamp)) _
    ⟨fun a b => by
      cases ha : a.isExpired <;> cases hb : b.isExpired <;> simp <;> omega⟩
    ⟨fun a b c => by
      cases ha : a.isExpired <;> cases hb : b.isExpired <;> cases hc : c.isExpired <;>
        simp <;> omega⟩
    (applyFilter filter account (applySearch lower searchTerm campaigns))
  refine ⟨_, hres, List.perm_insertionSort _ _, ?_, ?_⟩
  · exact List.Pairwise.imp (fun h => h.1) hsorted
  · exact List.Pairwise.imp (fun h ha hb => h.2 (ha.trans hb.symm)) hsorted

/-- C9 fails as stated: two campaigns whose deadlines, 9000000000000 and
9500000000000 seconds, lie beyond the range of `Date` have increasing
creation-date estimates, yet sort key `newest` returns them in their prior
order: both `creationDate` objects are Invalid Dates and every comparison is
NaN. -/
theorem newest_keeps_order_of_invalid_dates :
    (farFuture.map fun c => (c.id, (c.deadlineTimestamp : Int) * 1000 - 30 * 86400 * 1000))
        = [(1, 8999997408000000), (2, 9499997408000000)]
      ∧ (farFuture.map fun c => c.creationDate) = [.invalid, .invalid]
      ∧ (filteredCampaigns toLowerCase farFuture "all" "newest" "" none).map
          (List.map fun c => c.id) = .ok [1, 2] := by
  decide

/-- C9, amended: when the `creationDate` of every campaign is a valid `Date`,
sort key `newest` returns the campaigns in non-increasing order, and `oldest`
in non-decreasing order, of the time value of `creationDate`, campaigns with
the same `creationDate` staying in their prior relative order; and
`creationDate` is the `Date` of the deadline minus 30 days, in milliseconds,
which is valid exactly when the deadline is at most 8640002592000 seconds. -/
theorem newest_oldest_order_of_valid_dates (lower : String → String)
    (campaigns : List Campaign) (filter searchTerm : String) (account : Option String)
    (hvalid : ∀ c ∈ campaigns, c.creationDate ≠ .invalid) :
    (∃ r, filteredCampaigns lower campaigns filter "newest" searchTerm account = .ok r
        ∧ r.Perm (applyFilter filter account (applySearch lower searchTerm campaigns))
        ∧ r.Pairwise (fun a b => ∃ x y,
            a.creationDate = .valid x ∧ b.creationDate = .valid y ∧ x ≥ y)
        ∧ ∀ k : JsDate, r.filter (fun c => decide (c.creationDate = k))
            = (applyFilter filter account (applySearch lower searchTerm campaigns)).filter
                (fun c => decide (c.creationDate = k)))
      ∧ (∃ r, filteredCampaigns lower campaigns filter "oldest" searchTerm account = .ok r
        ∧ r.Perm (applyFilter filter account (applySearch lower searchTerm campaigns))
        ∧ r.Pairwise (fun a b => ∃ x y,
            a.creationDate = .valid x ∧ b.creationDate = .valid y ∧ x ≤ y)
        ∧ ∀ k : JsDate, r.filter (fun c => decide (c.creationDate = k))
            = (applyFilter filter account (applySearch lower searchTerm campaigns)).filter
                (fun c => decide (c.creationDate = k)))
      ∧ ∀ (viewer : Option String) (nowMs : Nat) (details : CampaignDetails) (id : Nat),
          (formatCampaignData viewer nowMs details id).creationDate
              = newDate ((formatCampaignData viewer nowMs details id).deadlineTimestamp * 1000
                  - 30 * 86400 * 1000)
            ∧ (formatCampaignData viewer nowMs details id).deadlineTimestamp
              = details.deadline
            ∧ ((formatCampaignData viewer nowMs details id).creationDate
                = .valid ((details.deadline : Int) * 1000 - 30 * 86400 * 1000)
              ↔ details.deadline ≤ 8640002592000) := by
  have hl : ∀ c ∈ applyFilter filter account (applySearch lower searchTerm campaigns),
      ∃ ms, c.creationDate = .valid ms := by
    intro c hc
    have hc2 := hvalid c (mem_of_mem_applySearch _ _ _ c (mem_of_mem_applyFilter _ _ _ c hc))
    cases hd : c.creationDate with
    | valid ms => exact ⟨ms, rfl⟩
    | invalid => exact absurd hd hc2
  refine ⟨?_, ?_, ?_⟩
  · have h := arraySort_of_valid compareNewest (fun c => c.creationDate) (fun x y => x ≥ y)
      (fun x y => by omega) (fun x y z => by omega) (fun _ _ => toNumber_sub_ok _ _)
      (fun a b x y (ha : a.creationDate = .valid x) (hb : b.creationDate = .valid y) => by
        rw [show sortsBefore compareNewest a b
          = sortsBefore JsDate.sub b.creationDate a.creationDate from rfl, ha, hb]
        exact sortsBefore_sub_valid y x) _ hl
    simpa [filteredCampaigns, applySort] using h
  · have h := arraySort_of_valid compareOldest (fun c => c.creationDate) (fun x y => x ≤ y)
      (fun x y => by omega) (fun x y z => by omega) (fun _ _ => toNumber_sub_ok _ _)
      (fun a b x y (ha : a.creationDate = .valid x) (hb : b.creationDate = .valid y) => by
        rw [show sortsBefore compareOldest a b
          = sortsBefore JsDate.sub a.creationDate b.creationDate from rfl, ha, hb]
        exact sortsBefore_sub_valid x y) _ hl
    simpa [filteredCampaigns, applySort] using h
  · intro viewer nowMs details id
    refine ⟨rfl, rfl, ?_⟩
    simp only [formatCampaignData, newDate]
    split_ifs with hr
    · simp only [JsDate.valid.injEq, true_iff]
      omega
    · simp only [reduceCtorEq, false_iff]
      omega

/-- The amended C9 on the three campaigns, whose deadlines are 1600000000,
1800000000 and 1800000000 seconds: `newest` puts the two later ones first, in
their prior order, and `oldest` puts them last. -/
theorem newest_oldest_order_of_valid_dates_witness :
    (∀ c ∈ threeCampaigns, c.creationDate ≠ .invalid)
      ∧ (threeCampaigns.map fun c => (c.id, c.creationDate))
        = [(1, .valid 1597408000000), (2, .valid 1797408000000), (3, .valid 1797408000000)]
      ∧ (filteredCampaigns toLowerCase threeCampaigns "all" "newest" "" none).map
          (List.map fun c => c.id) = .ok [2, 3, 1]
      ∧ (filteredCampaigns toLowerCase threeCampaigns "all" "oldest" "" none).map
          (List.map fun c => c.id) = .ok [1, 2, 3]
      ∧ ((∃ r, filteredCampaigns toLowerCase threeCampaigns "all" "newest" "" none = .ok r
          ∧ r.Perm (applyFilter "all" none (applySearch toLowerCase "" threeCampaigns))
          ∧ r.Pairwise (fun a b => ∃ x y,
              a.creationDate = .valid x ∧ b.creationDate = .valid y ∧ x ≥ y)
          ∧ ∀ k : JsDate, r.filter (fun c => decide (c.creationDate = k))
              = (applyFilter "all" none (applySearch toLowerCase "" threeCampaigns)).filter
                  (fun c => decide (c.creationDate = k)))
        ∧ (∃ r, filteredCampaigns toLowerCase threeCampaigns "all" "oldest" "" none = .ok r
          ∧ r.Perm (applyFilter "all" none (applySearch toLowerCase "" threeCampaigns))
          ∧ r.Pairwise (fun a b => ∃ x y,
              a.creationDate = .valid x ∧ b.creationDate = .valid y ∧ x ≤ y)
          ∧ ∀ k : JsDate, r.filter (fun c => decide (c.creationDate = k))
              = (applyFilter "all" none (applySearch toLowerCase "" threeCampaigns)).filter
                  (fun c => decide (c.creationDate = k)))
        ∧ ∀ (viewer : Option String) (nowMs : Nat) (details : CampaignDetails) (id : Nat),
            (formatCampaignData viewer nowMs details id).creationDate
                = newDate ((formatCampaignData viewer nowMs details id).deadlineTimestamp * 1000
                    - 30 * 86400 * 1000)
              ∧ (formatCampaignData viewer nowMs details id).deadlineTimestamp
                = details.deadline
              ∧ ((formatCampaignData viewer nowMs details id).creationDate
                  = .valid ((details.deadline : Int) * 1000 - 30 * 86400 * 1000)
                ↔ details.deadline ≤ 8640002592000)) :=
  ⟨by decide, by decide, by decide, by decide,
    newest_oldest_order_of_valid_dates toLowerCase threeCampaigns "all" "" none (by decide)⟩

/-- C10: the initial sort key is `newest`, and a sort key that is none of
`most-funded`, `ending-soon`, `newest`, `oldest` gives the same result as
`newest`. -/
theorem default_sort_is_newest (lower : String → String) (campaigns : List Campaign)
    (filter sortBy searchTerm : String) (account : Option String)
    (h1 : sortBy ≠ "most-funded") (h2 : sortBy ≠ "ending-soon")
    (h3 : sortBy ≠ "newest") (h4 : sortBy ≠ "oldest") :
    initialState.sortBy = "newest"
      ∧ filteredCampaigns lower campaigns filter sortBy searchTerm account
        = filteredCampaigns lower campaigns filter "newest" searchTerm account := by
  refine ⟨rfl, ?_⟩
  simp [filteredCampaigns, applySort, h1, h2, h3, h4]

/-- C10 at the unknown sort key `trending` on the three campaigns. -/
theorem default_sort_is_newest_witness :
    (filteredCampaigns toLowerCase threeCampaigns "all" "trending" "" none).map
        (List.map fun c => c.id) = .ok [2, 3, 1]
      ∧ (initialState.sortBy = "newest"
        ∧ filteredCampaigns toLowerCase threeCampaigns "all" "trending" "" none
          = filteredCampaigns toLowerCase threeCampaigns "all" "newest" "" none) :=
  ⟨by decide,
    default_sort_is_newest toLowerCase threeCampaigns "all" "trending" "" none
      (by decide) (by decide) (by decide) (by decide)⟩


/-! ## Urgency, the `my-campaigns` filter and the error view -/

/-- C11: `isUrgent` is true exactly when the days remaining until the deadline,
`(deadline - now) / 86400` with `now` the current time in whole seconds, are
greater than 0 and at most 3. -/
theorem isUrgent_iff_days_remaining (account : Option String) (nowMs : Nat)
    (details : CampaignDetails) (id : Nat) :
    (formatCampaignData account nowMs details id).isUrgent = true ↔
      0 < ((details.deadline : ℚ) - ((nowMs / 1000 : ℕ) : ℚ)) / 86400
        ∧ ((details.deadline : ℚ) - ((nowMs / 1000 : ℕ) : ℚ)) / 86400 ≤ 3 := by
  have h86400 : (0 : ℚ) < 86400 := by norm_num
  rw [lt_div_iff₀ h86400, div_le_iff₀ h86400]
  simp only [formatCampaignData, Bool.and_eq_true, decide_eq_true_eq]
  generalize nowMs / 1000 = now
  by_cases h : details.deadline > now
  · have hsub : ((details.deadline - now : ℕ) : ℚ) = (details.deadline : ℚ) - (now : ℚ) :=
      Nat.cast_sub (le_of_lt h)
    rw [if_pos h, ← hsub]
    constructor
    · rintro ⟨h1, h2⟩
      exact ⟨by simpa using h1, by exact_mod_cast h2⟩
    · rintro ⟨h1, h2⟩
      exact ⟨by simpa using h1, by exact_mod_cast h2⟩
  · rw [if_neg h]
    have hle : (details.deadline : ℚ) ≤ (now : ℚ) := by exact_mod_cast not_lt.mp h
    constructor
    · intro h0
      simp at h0
    · rintro ⟨h1, _⟩
      linarith

/-- C12: filter `my-campaigns` keeps exactly the campaigns whose creator equals
the connected account after lower-casing both, and nothing when no account is
connected; every list the pipeline returns consists of exactly those campaigns
that also pass the search. -/
theorem myCampaigns_filter (lower : String → String) (campaigns : List Campaign)
    (sortBy searchTerm : String) (account : Option String) :
    applyFilter "my-campaigns" account campaigns
        = (if accountTruthy account = true then
            campaigns.filter fun c =>
              decide (some (toLowerCase c.creator) = account.map toLowerCase)
          else [])
      ∧ (∀ r,
          filteredCampaigns lower campaigns "my-campaigns" sortBy searchTerm account = .ok r →
          r.Perm (applyFilter "my-campaigns" account (applySearch lower searchTerm campaigns)))
      ∧ (sortBy ≠ "most-funded" →
          ∃ r, filteredCampaigns lower campaigns "my-campaigns" sortBy searchTerm account
            = .ok r) := by
  refine ⟨?_, fun r hr => filteredCampaigns_perm _ _ _ _ _ _ r hr,
    filteredCampaigns_ok_of_ne _ _ _ _ _ _⟩
  cases account with
  | none => simp [applyFilter, accountTruthy]
  | some a =>
    by_cases ha : a = ""
    · simp [applyFilter, accountTruthy, ha]
    · simp [applyFilter, accountTruthy, ha]

/-- C12 on the three campaigns, all created by `0xAbCd`: the account `0xABCD`
sees all three, no account sees none. -/
theorem myCampaigns_filter_witness :
    (filteredCampaigns toLowerCase threeCampaigns "my-campaigns" "newest" ""
          (some "0xABCD")).map (List.map fun c => c.id) = .ok [2, 3, 1]
      ∧ filteredCampaigns toLowerCase threeCampaigns "my-campaigns" "newest" "" none = .ok []
      ∧ (applyFilter "my-campaigns" (some "0xABCD") threeCampaigns
          = (if accountTruthy (some "0xABCD") = true then
              threeCampaigns.filter fun c =>
                decide (some (toLowerCase c.creator) = (some "0xABCD").map toLowerCase)
            else [])
        ∧ (∀ r, filteredCampaigns toLowerCase threeCampaigns "my-campaigns" "newest" ""
                (some "0xABCD") = .ok r →
            r.Perm (applyFilter "my-campaigns" (some "0xABCD")
              (applySearch toLowerCase "" threeCampaigns)))
        ∧ ("newest" ≠ "most-funded" →
            ∃ r, filteredCampaigns toLowerCase threeCampaigns "my-campaigns" "newest" ""
              (some "0xABCD") = .ok r)) :=
  ⟨by decide, by decide,
    myCampaigns_filter toLowerCase threeCampaigns "newest" "" (some "0xABCD")⟩

/-- C13 fails as stated: when the list already shows a campaign and the count
read of a refresh fails, the error is set but the view rendered afterwards is
the campaign grid, not the error view. -/
theorem count_failure_keeps_grid :
    countFailing.getCampaignCount = .error "could not detect network"
      ∧ (fetchCampaigns (some countFailing) none (fun _ => 0) 120 shownState).1.error
        = some "Failed to load campaigns. Please check your wallet connection."
      ∧ renderListView (fetchCampaigns (some countFailing) none (fun _ => 0) 120 shownState).1
        = .campaignGrid := by
  decide

/-- C13, amended: when the count read fails, no detail read is issued and the
list-level error is set; the view rendered afterwards is the error view with
Retry when the list held no campaign before, and the campaign grid otherwise. -/
theorem count_failure_sets_error (c : Contract) (account : Option String)
    (settledAt : Nat → Nat) (doneMs : Nat) (s : ListState) (e : String)
    (hcount : c.getCampaignCount = .error e) :
    (fetchCampaigns (some c) account settledAt doneMs s).2 = []
      ∧ (fetchCampaigns (some c) account settledAt doneMs s).1.error
        = some "Failed to load campaigns. Please check your wallet connection."
      ∧ (fetchCampaigns (some c) account settledAt doneMs s).1.campaigns = s.campaigns
      ∧ renderListView (fetchCampaigns (some c) account settledAt doneMs s).1
        = (if s.campaigns = [] then
            .errorWithRetry "Failed to load campaigns. Please check your wallet connection."
          else .campaignGrid) := by
  refine ⟨by simp [fetchCampaigns, hcount], by simp [fetchCampaigns, hcount],
    by simp [fetchCampaigns, hcount], ?_⟩
  by_cases hs : s.campaigns = []
  · simp [fetchCampaigns, hcount, renderListView, hs]
  · simp [fetchCampaigns, hcount, renderListView, hs]

/-- The amended C13 on the first fetch of a list view, which holds no campaign
yet: the error view with Retry is rendered. -/
theorem count_failure_sets_error_witness :
    renderListView (fetchCampaigns (some countFailing) none (fun _ => 0) 120 initialState).1
        = .errorWithRetry "Failed to load campaigns. Please check your wallet connection."
      ∧ ((fetchCampaigns (some countFailing) none (fun _ => 0) 120 initialState).2 = []
        ∧ (fetchCampaigns (some countFailing) none (fun _ => 0) 120 initialState).1.error
          = some "Failed to load campaigns. Please check your wallet connection."
        ∧ (fetchCampaigns (some countFailing) none (fun _ => 0) 120 initialState).1.campaigns
          = initialState.campaigns
        ∧ renderListView
            (fetchCampaigns (some countFailing) none (fun _ => 0) 120 initialState).1
          = (if initialState.campaigns = [] then
              .errorWithRetry "Failed to load campaigns. Please check your wallet connection."
            else .campaignGrid)) :=
  ⟨by decide,
    count_failure_sets_error countFailing none (fun _ => 0) 120 initialState
      "could not detect network" rfl⟩

/-! ## Properties of the number parsers -/

/-- A digit is none of the other characters the number parsers look for. -/
theorem isDigit_ne (c : Char) (h : c.isDigit = true) :
    isWhiteSpace c = false ∧ c ≠ '-' ∧ c ≠ '+' ∧ c ≠ '.' ∧ c ≠ 'e' ∧ c ≠ 'E'
      ∧ c ≠ 'x'
      ∧ c ≠ 'X' ∧ c ≠ 'I' := by
  have hv : 48 ≤ c.toNat ∧ c.toNat ≤ 57 := by
    simpa [Char.isDigit, Char.toNat, UInt32.le_def, Nat.le_antisymm_iff] using h
  refine ⟨?_, ?_, ?_, ?_, ?_, ?_, ?_, ?_, ?_⟩
  · unfold isWhiteSpace
    generalize c.toNat = n at hv
    obtain ⟨h1, h2⟩ := hv
    interval_cases n <;> decide
  all_goals
    rintro rfl
    revert hv
    decide

/-- A run of digits followed by text that does not start with a digit is what
`takeWhile` takes and `dropWhile` leaves. -/
theorem digits_append (ds rest : List Char) (hds : ∀ c ∈ ds, c.isDigit = true)
    (hrest : ∀ c ∈ rest.head?, c.isDigit = false) :
    (ds ++ rest).takeWhile Char.isDigit = ds ∧ (ds ++ rest).dropWhile Char.isDigit = rest := by
  rw [List.takeWhile_append_of_pos hds, List.dropWhile_append_of_pos hds]
  cases rest with
  | nil => simp
  | cons c cs =>
    have hc : c.isDigit = false := hrest c rfl
    simp [List.takeWhile_cons, List.dropWhile_cons, hc]

/-- No sign is read from text that starts with neither `-` nor `+`. -/
theorem scanSign_of_ne (cs : List Char) (h : ∀ c ∈ cs.head?, c ≠ '-' ∧ c ≠ '+') :
    scanSign cs = (false, cs) := by
  unfold scanSign
  split
  · exact absurd rfl (h '-' rfl).1
  · exact absurd rfl (h '+' rfl).2
  · rfl

/-- The exponent part of a well-formed field value is read in full, with the
value it denotes. -/
theorem scanExponent_exponentText (v : NumberFieldValue) (h : v.wellFormed = true) :
    scanExponent v.exponentText = (v.exponentValue, []) := by
  unfold NumberFieldValue.wellFormed at h
  unfold NumberFieldValue.exponentText NumberFieldValue.exponentValue
  cases hex : v.exponentPart with
  | none => rfl
  | some t =>
    obtain ⟨marker, sign, digits⟩ := t
    simp only [hex, Bool.and_eq_true, decide_eq_true_eq, List.all_eq_true] at h
    obtain ⟨-, ⟨⟨hm, hs⟩, hne⟩, hd⟩ := h
    have htake : digits.takeWhile Char.isDigit = digits := List.takeWhile_eq_self_iff.mpr hd
    have hdrop : digits.dropWhile Char.isDigit = [] := List.dropWhile_eq_nil_iff.mpr hd
    have hsign : scanSign (sign ++ digits) = (decide (sign = ['-']), digits) := by
      rcases hs with hs | hs | hs
      · subst hs
        rw [List.nil_append, scanSign_of_ne]
        · simp
        · intro c hc
          have hcd : c ∈ digits := List.mem_of_mem_head? hc
          exact ⟨(isDigit_ne c (hd c hcd)).2.1, (isDigit_ne c (hd c hcd)).2.2.1⟩
      · subst hs
        simp [scanSign]
      · subst hs
        simp [scanSign]
    simp only [scanExponent, hm, if_true, hsign, htake, hdrop, hne, if_false]
    by_cases hneg : sign = ['-'] <;> simp [hneg]

/-- The exponent part of a well-formed field value starts with neither a digit
nor a point. -/
theorem exponentText_head (v : NumberFieldValue) (h : v.wellFormed = true) :
    ∀ c ∈ v.exponentText.head?, c.isDigit = false ∧ c ≠ '.' := by
  unfold NumberFieldValue.wellFormed at h
  unfold NumberFieldValue.exponentText
  cases hex : v.exponentPart with
  | none => simp
  | some t =>
    obtain ⟨marker, sign, digits⟩ := t
    simp only [hex, Bool.and_eq_true, decide_eq_true_eq, List.all_eq_true] at h
    obtain ⟨-, ⟨⟨hm, -⟩, -⟩, -⟩ := h
    intro c hc
    simp only [List.head?_cons, Option.mem_def, Option.some.injEq] at hc
    subst hc
    rcases hm with hm | hm <;> subst hm <;> exact ⟨by decide, by decide⟩

/-- The unsigned part of a well-formed field value is read in full, with the
mantissa and the exponent of the number it denotes. -/
theorem scanUnsignedDecimal_text (v : NumberFieldValue) (h : v.wellFormed = true) :
    scanUnsignedDecimal (v.integerPart
        ++ ((if v.fractionPart = [] then [] else '.' :: v.fractionPart) ++ v.exponentText))
      = some (digitsValue (v.integerPart ++ v.fractionPart),
          v.exponentValue - (v.fractionPart.length : Int), []) := by
  have hexp := scanExponent_exponentText v h
  have hhead := exponentText_head v h
  unfold NumberFieldValue.wellFormed at h
  simp only [Bool.and_eq_true, decide_eq_true_eq, List.all_eq_true] at h
  obtain ⟨⟨⟨hip, hfp⟩, hne⟩, -⟩ := h
  by_cases hf : v.fractionPart = []
  · have hipne : v.integerPart ≠ [] := by
      rcases hne with hne | hne
      · exact hne
      · exact absurd hf hne
    obtain ⟨htake, hdrop⟩ := digits_append v.integerPart v.exponentText hip
      (fun c hc => (hhead c hc).1)
    simp only [hf, if_true, List.nil_append, List.append_nil, List.length_nil, Nat.cast_zero,
      sub_zero]
    unfold scanUnsignedDecimal
    simp only [htake, hdrop]
    split
    · rename_i r2 heq
      exact absurd rfl (hhead '.' (by rw [heq]; rfl)).2
    · rw [if_neg hipne, hexp]
  · obtain ⟨htake, hdrop⟩ := digits_append v.integerPart
      ('.' :: (v.fractionPart ++ v.exponentText)) hip
      (fun c hc => by
        simp only [List.head?_cons, Option.mem_def, Option.some.injEq] at hc
        subst hc
        decide)
    obtain ⟨htake2, hdrop2⟩ := digits_append v.fractionPart v.exponentText hfp
      (fun c hc => (hhead c hc).1)
    simp only [hf, if_false, List.cons_append]
    unfold scanUnsignedDecimal
    simp only [htake, hdrop, htake2, hdrop2, hexp]
    rw [if_neg (fun hboth => hf hboth.2)]


/-- The unsigned part of a well-formed field value starts with a digit or a
point. -/
theorem unsigned_text_head (v : NumberFieldValue) (h : v.wellFormed = true) :
    ∃ c cs, v.integerPart
        ++ ((if v.fractionPart = [] then [] else '.' :: v.fractionPart) ++ v.exponentText)
          = c :: cs
      ∧ (c.isDigit = true ∨ c = '.')
      ∧ (c = '0' → ∀ x ∈ cs.head?, x ≠ 'x' ∧ x ≠ 'X') := by
  have hhead := exponentText_head v h
  have hwf := h
  unfold NumberFieldValue.wellFormed at h
  simp only [Bool.and_eq_true, decide_eq_true_eq, List.all_eq_true] at h
  obtain ⟨⟨⟨hip, hfp⟩, hne⟩, hex⟩ := h
  cases hi : v.integerPart with
  | nil =>
    have hf : v.fractionPart ≠ [] := by
      rcases hne with hne | hne
      · exact absurd hi hne
      · exact hne
    refine ⟨'.', v.fractionPart ++ v.exponentText, by simp [hf], Or.inr rfl, ?_⟩
    intro h0
    exact absurd h0 (by decide)
  | cons c cs =>
    refine ⟨c, cs ++ ((if v.fractionPart = [] then [] else '.' :: v.fractionPart)
      ++ v.exponentText), rfl, Or.inl (hip c (by rw [hi]; exact List.mem_cons_self c cs)), ?_⟩
    intro _ x hx
    cases hcs : cs with
    | cons d ds =>
      rw [hcs] at hx
      simp only [List.cons_append, List.head?_cons, Option.mem_def, Option.some.injEq] at hx
      subst hx
      have hd := isDigit_ne d (hip d (by rw [hi, hcs]; simp))
      exact ⟨hd.2.2.2.2.2.2.1, hd.2.2.2.2.2.2.2.1⟩
    | nil =>
      rw [hcs, List.nil_append] at hx
      by_cases hf : v.fractionPart = []
      · simp only [hf, if_true, List.nil_append] at hx
        unfold NumberFieldValue.exponentText at hx
        cases hexp : v.exponentPart with
        | none => simp [hexp] at hx
        | some t =>
          obtain ⟨marker, sign, digits⟩ := t
          simp only [hexp, Bool.and_eq_true, decide_eq_true_eq] at hex
          simp only [hexp, List.head?_cons, Option.mem_def, Option.some.injEq] at hx
          subst hx
          rcases hex.1.1.1 with hm | hm <;> rw [hm] <;> exact ⟨by decide, by decide⟩
      · simp only [hf, if_false, List.cons_append, List.head?_cons, Option.mem_def,
          Option.some.injEq] at hx
        subst hx
        exact ⟨by decide, by decide⟩

/-- `parseFloat` reads a well-formed field value as the number it denotes. -/
theorem parseFloat_text (v : NumberFieldValue) (h : v.wellFormed = true) :
    parseFloat v.text = v.number := by
  obtain ⟨c, cs, hbody, hc, -⟩ := unsigned_text_head v h
  have hscan := scanUnsignedDecimal_text v h
  rw [hbody] at hscan
  have hc2 : isWhiteSpace c = false ∧ c ≠ '-' ∧ c ≠ '+' ∧ c ≠ 'I' := by
    rcases hc with hc | hc
    · have := isDigit_ne c hc
      exact ⟨this.1, this.2.1, this.2.2.1, this.2.2.2.2.2.2.2.2⟩
    · subst hc
      exact ⟨by decide, by decide, by decide, by decide⟩
  have hinf : "Infinity".data.isPrefixOf (c :: cs) = false := by
    have : "Infinity".data = 'I' :: "nfinity".data := rfl
    rw [this, List.isPrefixOf]
    simp [Ne.symm hc2.2.2.2]
  have hsign : scanSign (c :: cs) = (false, c :: cs) :=
    scanSign_of_ne (c :: cs) (fun x hx => by
      simp only [List.head?_cons, Option.mem_def, Option.some.injEq] at hx
      subst hx
      exact ⟨hc2.2.1, hc2.2.2.1⟩)
  unfold parseFloat NumberFieldValue.text NumberFieldValue.number
  simp only [hbody]
  cases hn : v.negative with
  | false =>
    simp only [Bool.false_eq_true, if_false, List.nil_append]
    rw [List.dropWhile_cons_of_neg (by simp [hc2.1])]
    unfold scanDecimal
    rw [hsign]
    simp only [hinf, Bool.false_eq_true, if_false, hscan]
  | true =>
    simp only [if_true, List.singleton_append]
    rw [List.dropWhile_cons_of_neg (by decide)]
    unfold scanDecimal
    have hsign2 : scanSign ('-' :: c :: cs) = (true, c :: cs) := rfl
    rw [hsign2]
    simp only [hinf, Bool.false_eq_true, if_false, hscan]


/-- `parseInt` reads of a well-formed field value the integer part and its
sign, and gives NaN when there is no integer part. -/
theorem parseInt_text (v : NumberFieldValue) (h : v.wellFormed = true) :
    parseInt v.text
      = if v.integerPart = [] then none
        else some (if v.negative then -(digitsValue v.integerPart : Int)
          else (digitsValue v.integerPart : Int)) := by
  obtain ⟨c, cs, hbody, hc, hx⟩ := unsigned_text_head v h
  have hhead := exponentText_head v h
  have hip : ∀ d ∈ v.integerPart, d.isDigit = true := by
    unfold NumberFieldValue.wellFormed at h
    simp only [Bool.and_eq_true, decide_eq_true_eq, List.all_eq_true] at h
    exact h.1.1.1
  have htake : (c :: cs).takeWhile Char.isDigit = v.integerPart := by
    rw [← hbody]
    refine (digits_append v.integerPart _ hip ?_).1
    intro d hd
    by_cases hf : v.fractionPart = []
    · simp only [hf, if_true, List.nil_append] at hd
      exact (hhead d hd).1
    · simp only [hf, if_false, List.cons_append, List.head?_cons, Option.mem_def,
        Option.some.injEq] at hd
      subst hd
      decide
  have hc2 : isWhiteSpace c = false ∧ c ≠ '-' ∧ c ≠ '+' := by
    rcases hc with hc | hc
    · have := isDigit_ne c hc
      exact ⟨this.1, this.2.1, this.2.2.1⟩
    · subst hc
      exact ⟨by decide, by decide, by decide⟩
  have hsign : scanSign (c :: cs) = (false, c :: cs) :=
    scanSign_of_ne (c :: cs) (fun x hx => by
      simp only [List.head?_cons, Option.mem_def, Option.some.injEq] at hx
      subst hx
      exact ⟨hc2.2.1, hc2.2.2⟩)
  have hmag : (match c :: cs with
      | '0' :: x :: rest =>
        if x = 'x' ∨ x = 'X' then
          let ds := rest.takeWhile fun c => (hexDigit c).isSome
          if ds = [] then none
          else some (ds.foldl (fun n c => 16 * n + (hexDigit c).getD 0) 0)
        else some (digitsValue ((c :: cs).takeWhile Char.isDigit))
      | body =>
        if body.takeWhile Char.isDigit = [] then none
        else some (digitsValue (body.takeWhile Char.isDigit)))
      = if v.integerPart = [] then none else some (digitsValue v.integerPart) := by
    split
    · rename_i x rest heq
      rw [List.cons.injEq] at heq
      obtain ⟨h0, hcs⟩ := heq
      have hxne := hx h0 x (by rw [hcs]; rfl)
      rw [if_neg (by rintro (hxx | hxx) <;> [exact hxne.1 hxx; exact hxne.2 hxx])]
      have hne : v.integerPart ≠ [] := by
        rw [← htake, h0]
        simp [List.takeWhile_cons]
      rw [if_neg hne, htake]
    · rw [htake]
  unfold parseInt NumberFieldValue.text
  simp only [hbody]
  cases hn : v.negative with
  | false =>
    simp only [Bool.false_eq_true, if_false, List.nil_append]
    rw [List.dropWhile_cons_of_neg (by simp [hc2.1]), hsign]
    simp only [hmag]
    by_cases hne : v.integerPart = [] <;> simp [hne]
  | true =>
    simp only [if_true, List.singleton_append]
    rw [List.dropWhile_cons_of_neg (by decide)]
    have hsign2 : scanSign ('-' :: c :: cs) = (true, c :: cs) := rfl
    rw [hsign2]
    simp only [hmag]
    by_cases hne : v.integerPart = [] <;> simp [hne]

/-! ## Properties of the create-campaign form -/

/-- The text of a well-formed field value is not empty. -/
theorem NumberFieldValue.text_ne_empty (v : NumberFieldValue) (h : v.wellFormed = true) :
    v.text ≠ "" := by
  obtain ⟨c, cs, hbody, -, -⟩ := unsigned_text_head v h
  intro hempty
  have hdata := congrArg String.data hempty
  unfold NumberFieldValue.text at hdata
  simp only [hbody] at hdata
  cases hn : v.negative <;> simp [hn] at hdata

/-- C14: the fields `target` and `durationDays` are number fields, which hold
the empty string (any text that is not a number is stored as such) or a valid
floating-point number.  `validateForm` records a target error for the empty
string, and for a number exactly when it is not greater than 0.  It records a
duration error for the empty string, and for a number written with an integer
part and without an exponent part exactly when it is not at least 1; for every
number the test is made on the integer part `parseInt` reads. -/
theorem validateForm_number_fields (formData : FormData) :
    (formData.target = "" →
        (validateForm formData).1.target = some "Target amount must be greater than 0")
      ∧ (formData.durationDays = "" →
        (validateForm formData).1.durationDays = some "Duration must be at least 1 day")
      ∧ (∀ v : NumberFieldValue, v.wellFormed = true → formData.target = v.text →
          parseFloat formData.target = v.number
            ∧ ((validateForm formData).1.target = none ↔ v.number.gtZero = true)
            ∧ ((validateForm formData).1.target = some "Target amount must be greater than 0" ↔
              v.number.gtZero = false))
      ∧ (∀ v : NumberFieldValue, v.wellFormed = true → v.integerPart ≠ [] →
          v.exponentPart = none → formData.durationDays = v.text →
          ((validateForm formData).1.durationDays = none ↔
              v.negative = false ∧ 1 ≤ digitsValue v.integerPart)
            ∧ ((validateForm formData).1.durationDays = some "Duration must be at least 1 day" ↔
              ¬ (v.negative = false ∧ 1 ≤ digitsValue v.integerPart)))
      ∧ (∀ v : NumberFieldValue, v.wellFormed = true → formData.durationDays = v.text →
          parseInt formData.durationDays
              = (if v.integerPart = [] then none
                else some (if v.negative then -(digitsValue v.integerPart : Int)
                  else (digitsValue v.integerPart : Int)))
            ∧ ((validateForm formData).1.durationDays = none ↔
              v.integerPart = []
                ∨ (v.negative = false ∧ 1 ≤ digitsValue v.integerPart))) := by
  have htarget : (validateForm formData).1.target
      = if (decide (formData.target = "") || (parseFloat formData.target).leZero) = true
        then some "Target amount must be greater than 0" else none := rfl
  have hdur : (validateForm formData).1.durationDays
      = if (decide (formData.durationDays = "") || parseIntLeZero formData.durationDays) = true
        then some "Duration must be at least 1 day" else none := rfl
  have hgeneral : ∀ v : NumberFieldValue, v.wellFormed = true →
      formData.durationDays = v.text →
      ((validateForm formData).1.durationDays = none ↔
        v.integerPart = [] ∨ (v.negative = false ∧ 1 ≤ digitsValue v.integerPart)) := by
    intro v hv hd
    have hne : formData.durationDays ≠ "" := hd ▸ v.text_ne_empty hv
    have hint := parseInt_text v hv
    rw [← hd] at hint
    rw [hdur]
    unfold parseIntLeZero
    rw [hint]
    by_cases hip : v.integerPart = []
    · simp [hip, hne]
    · cases hn : v.negative with
      | true => simp [hip, hne]
      | false =>
        simp only [hip, if_false, hne, decide_False, Bool.false_or, Bool.false_eq_true,
          decide_eq_true_eq, false_or, true_and]
        split_ifs with hle
        · simp only [reduceCtorEq, false_iff, not_le]
          omega
        · simp only [true_iff]
          omega
  refine ⟨?_, ?_, ?_, ?_, ?_⟩
  · intro h
    rw [htarget]
    simp [h]
  · intro h
    rw [hdur]
    simp [h]
  · intro v hv ht
    have hne : formData.target ≠ "" := ht ▸ v.text_ne_empty hv
    have hfloat : parseFloat formData.target = v.number := ht ▸ parseFloat_text v hv
    have hgt : v.number.gtZero = !v.number.leZero := rfl
    refine ⟨hfloat, ?_, ?_⟩
    · rw [htarget, hfloat, hgt]
      cases hle : v.number.leZero <;> simp [hne]
    · rw [htarget, hfloat, hgt]
      cases hle : v.number.leZero <;> simp [hne]
  · intro v hv hip hex hd
    have hg := hgeneral v hv hd
    simp only [hip, false_or] at hg
    refine ⟨hg, ?_⟩
    rw [← hg, hdur]
    split_ifs <;> simp
  · intro v hv hd
    exact ⟨hd ▸ parseInt_text v hv, hgeneral v hv hd⟩

/-- C14 on the empty fields, on the targets `0`, `-2` and `1e-400` (which
denotes the Number 0) and the durations `0.9`, `-3` and `0`, all of which are
refused, and on the target `0.5` with the duration `2.5`, which are accepted. -/
theorem validateForm_number_fields_witness :
    ((validateForm (formWith "" "")).1.target, (validateForm (formWith "" "")).1.durationDays)
        = (some "Target amount must be greater than 0", some "Duration must be at least 1 day")
      ∧ ((validateForm (formWith "0" "0.9")).1.target,
          (validateForm (formWith "0" "0.9")).1.durationDays)
        = (some "Target amount must be greater than 0", some "Duration must be at least 1 day")
      ∧ ((validateForm (formWith "-2" "-3")).1.target,
          (validateForm (formWith "-2" "-3")).1.durationDays)
        = (some "Target amount must be greater than 0", some "Duration must be at least 1 day")
      ∧ ((validateForm (formWith "1e-400" "0")).1.target,
          (validateForm (formWith "1e-400" "0")).1.durationDays)
        = (some "Target amount must be greater than 0", some "Duration must be at least 1 day")
      ∧ ((validateForm (formWith "0.5" "2.5")).1.target,
          (validateForm (formWith "0.5" "2.5")).1.durationDays) = (none, none)
      ∧ (halfEther.wellFormed = true ∧ (formWith "0.5" "2.5").target = halfEther.text)
      ∧ (parseFloat (formWith "0.5" "2.5").target = halfEther.number
        ∧ ((validateForm (formWith "0.5" "2.5")).1.target = none ↔
          halfEther.number.gtZero = true)
        ∧ ((validateForm (formWith "0.5" "2.5")).1.target
            = some "Target amount must be greater than 0" ↔
          halfEther.number.gtZero = false))
      ∧ (twoDaysAndHalf.wellFormed = true ∧ twoDaysAndHalf.integerPart ≠ []
        ∧ twoDaysAndHalf.exponentPart = none
        ∧ (formWith "0.5" "2.5").durationDays = twoDaysAndHalf.text)
      ∧ (((validateForm (formWith "0.5" "2.5")).1.durationDays = none ↔
          twoDaysAndHalf.negative = false ∧ 1 ≤ digitsValue twoDaysAndHalf.integerPart)
        ∧ ((validateForm (formWith "0.5" "2.5")).1.durationDays
            = some "Duration must be at least 1 day" ↔
          ¬ (twoDaysAndHalf.negative = false
            ∧ 1 ≤ digitsValue twoDaysAndHalf.integerPart))) :=
  ⟨by decide, by decide, by decide, by decide, by decide, ⟨by decide, by decide⟩,
    (validateForm_number_fields (formWith "0.5" "2.5")).2.2.1 halfEther
      (by decide) (by decide),
    ⟨by decide, by decide, rfl, by decide⟩,
    (validateForm_number_fields (formWith "0.5" "2.5")).2.2.2.1 twoDaysAndHalf
      (by decide) (by decide) rfl (by decide)⟩

/-- A field check `!value || !value.startsWith(pre)` fires exactly when the value
is empty or does not start with `pre`. -/
theorem empty_or_not_startsWith_iff (s pre : String) :
    (decide (s = "") || !startsWith s pre) = true ↔ s = "" ∨ ¬ pre.data <+: s.data := by
  rw [Bool.or_eq_true, decide_eq_true_eq, Bool.not_eq_true', ← Bool.not_eq_true, startsWith,
    List.isPrefixOf_iff_prefix]

/-- An `errors` object has no key exactly when every field is absent. -/
theorem FormErrors.keys_length_eq_zero_iff (errors : FormErrors) :
    errors.keys.length = 0 ↔ errors = ⟨none, none, none, none, none, none⟩ := by
  rcases errors with ⟨_ | _, _ | _, _ | _, _ | _, _ | _, _ | _⟩ <;> simp [FormErrors.keys]

/-- C15: `validateForm` returns true exactly when it records no field error; it
records a title error exactly when the title is empty, a description error
exactly when the description is empty, a beneficiary error exactly when the
beneficiary is empty or does not start with `0x`, and an image error exactly
when the image URL is empty or does not start with `http`. -/
theorem validateForm_field_errors (formData : FormData) :
    ((validateForm formData).2 = true ↔
        (validateForm formData).1 = ⟨none, none, none, none, none, none⟩)
      ∧ ((validateForm formData).1.title.isSome = true ↔ formData.title = "")
      ∧ ((validateForm formData).1.description.isSome = true ↔ formData.description = "")
      ∧ ((validateForm formData).1.beneficiary.isSome = true ↔
          formData.beneficiary = "" ∨ ¬ "0x".data <+: formData.beneficiary.data)
      ∧ ((validateForm formData).1.image.isSome = true ↔
          formData.image = "" ∨ ¬ "http".data <+: formData.image.data) := by
  have hret : (validateForm formData).2
      = decide ((validateForm formData).1.keys.length = 0) := rfl
  have htitle : (validateForm formData).1.title
      = if formData.title = "" then some "Title is required" else none := rfl
  have hdesc : (validateForm formData).1.description
      = if formData.description = "" then some "Description is required" else none := rfl
  have hben : (validateForm formData).1.beneficiary
      = if (decide (formData.beneficiary = "") || !startsWith formData.beneficiary "0x") = true
        then some "Valid beneficiary address is required" else none := rfl
  have himg : (validateForm formData).1.image
      = if (decide (formData.image = "") || !startsWith formData.image "http") = true
        then some "Valid image URL is required" else none := rfl
  refine ⟨?_, ?_, ?_, ?_, ?_⟩
  · rw [hret, decide_eq_true_eq, FormErrors.keys_length_eq_zero_iff]
  · rw [htitle]
    split_ifs with h <;> simp [h]
  · rw [hdesc]
    split_ifs with h <;> simp [h]
  · rw [hben, ← empty_or_not_startsWith_iff]
    split_ifs with h <;> simp [h]
  · rw [himg, ← empty_or_not_startsWith_iff]
    split_ifs with h <;> simp [h]

/-- C16: when `validateForm` fails, `handleSubmit` makes no contract call (and no
alert) and leaves the form field values unchanged; a `createCampaign`
transaction is submitted only when validation passes and a contract and an
account are present. -/
theorem handleSubmit_blocked_by_validation (contract : Option WriteContract)
    (account : Option String) (parseEther : String → Except ErrorObj Nat) (s : FormState) :
    ((validateForm s.formData).2 = false →
        (handleSubmit contract account parseEther s).2 = []
          ∧ (handleSubmit contract account parseEther s).1.formData = s.formData)
      ∧ ∀ args, Effect.createCampaign args ∈ (handleSubmit contract account parseEther s).2 →
          (validateForm s.formData).2 = true ∧ contract.isSome = true
            ∧ accountTruthy account = true := by
  constructor
  · intro hbad
    simp [handleSubmit, hbad]
  · intro args hmem
    cases hvalid : (validateForm s.formData).2 with
    | false => simp [handleSubmit, hvalid] at hmem
    | true =>
      refine ⟨rfl, ?_⟩
      cases contract with
      | none => simp [handleSubmit, hvalid] at hmem
      | some c =>
        cases account with
        | none => simp [handleSubmit, hvalid] at hmem
        | some a =>
          by_cases ha : a = ""
          · simp [handleSubmit, hvalid, ha] at hmem
          · simp [accountTruthy, ha]

/-- C16 on a form with an empty title, which submits nothing and keeps its
fields, and on the valid form, which submits one `createCampaign`. -/
theorem handleSubmit_blocked_by_validation_witness :
    (validateForm untitledForm).2 = false
      ∧ (handleSubmit (some acceptingContract) (some "0xAbCd") sampleParseEther
          (freshForm validForm)).2
        = [.createCampaign
            { title := "Lab"
              description := "A new lab"
              targetAmount := 5000000000000000000
              durationDays := some 30
              beneficiary := "0xAbCd"
              image := "https://example.org/lab.png" },
          .wait]
      ∧ (((validateForm (freshForm untitledForm).formData).2 = false →
          (handleSubmit (some acceptingContract) (some "0xAbCd") sampleParseEther
              (freshForm untitledForm)).2 = []
            ∧ (handleSubmit (some acceptingContract) (some "0xAbCd") sampleParseEther
                (freshForm untitledForm)).1.formData = (freshForm untitledForm).formData)
        ∧ ∀ args, Effect.createCampaign args ∈
            (handleSubmit (some acceptingContract) (some "0xAbCd") sampleParseEther
              (freshForm untitledForm)).2 →
          (validateForm (freshForm untitledForm).formData).2 = true
            ∧ (some acceptingContract).isSome = true
            ∧ accountTruthy (some "0xAbCd") = true) :=
  ⟨by decide, by decide,
    handleSubmit_blocked_by_validation (some acceptingContract) (some "0xAbCd")
      sampleParseEther (freshForm untitledForm)⟩

/-! ## Properties of the write actions -/

/-- C17 on the code: when the donation of 5 ETH to campaign 2 is rejected with
the reason `Campaign ended`, the modal alerts the fixed text `Donation failed.`,
while the card alerts the reason and a rejected withdrawal alerts its reason. -/
theorem modal_alert_ignores_error :
    DonateModal.handleDonate (some rejectingContract) sampleParseEther
        (listModalProps (some rejectingContract) labCampaign) "5"
      = [.setLoading true, .donate 2 5000000000000000000, .setLoading false,
          .alert "Donation failed."]
      ∧ CampaignCard.handleDonate (some rejectingContract) (some "0xAbCd") sampleParseEther
          2 "5"
        = [.setLoading true, .donate 2 5000000000000000000,
            .alert "Donation failed: Campaign ended", .setLoading false]
      ∧ handleWithdraw (some "0xAbCd") (some rejectingContract) labCampaign
        = [.withdrawFunds 2, .alert "Failed to withdraw: Not the creator"] := by
  decide

/-- Up to the first `(`: the text is either free of `(` and taken whole, or cut
right before its first `(`. -/
theorem takeWhile_ne_paren (l : List Char) :
    l.takeWhile (fun c => c ≠ '(') = l
      ∨ ∃ rest, l = l.takeWhile (fun c => c ≠ '(') ++ '(' :: rest := by
  induction l with
  | nil => left; rfl
  | cons a l ih =>
    by_cases ha : a = '('
    · right
      exact ⟨l, by simp [List.takeWhile, ha]⟩
    · have hcons : (a :: l).takeWhile (fun c => c ≠ '(')
          = a :: l.takeWhile (fun c => c ≠ '(') :=
        List.takeWhile_cons_of_pos (by simpa using ha)
      rcases ih with h | ⟨rest, h⟩
      · left
        rw [hcons, h]
      · right
        refine ⟨rest, ?_⟩
        rw [hcons, List.cons_append, ← h]

/-- C18: the alert for an error with message `message` raised while creating a
campaign is `Error creating campaign: ` followed by the user-rejected text when
the message contains `user rejected`; otherwise by the parameter-mismatch text
when it contains `INVALID_ARGUMENT` or `no matching fragment`; otherwise by the
part of the message before its first `(`, the whole message when it has none. -/
theorem createErrorAlert_cases (message : String) :
    ∃ tail : String, createErrorAlert message = "Error creating campaign: " ++ tail
      ∧ (if "user rejected".data <:+: message.data then
          tail = "Transaction was rejected by user."
        else if "INVALID_ARGUMENT".data <:+: message.data
            ∨ "no matching fragment".data <:+: message.data then
          tail = "Contract requires different parameter types. Check the console for details."
        else
          tail.data <+: message.data ∧ '(' ∉ tail.data
            ∧ (tail = message ∨ ∃ rest, message.data = tail.data ++ '(' :: rest)) := by
  unfold createErrorAlert
  by_cases h1 : "user rejected".data <:+: message.data
  · exact ⟨"Transaction was rejected by user.",
      by simp only [includes, h1, decide_True, if_true], by simp [h1]⟩
  · by_cases h2 : "INVALID_ARGUMENT".data <:+: message.data
        ∨ "no matching fragment".data <:+: message.data
    · refine ⟨"Contract requires different parameter types. Check the console for details.",
        ?_, by simp [h1, h2]⟩
      rcases h2 with h2 | h2 <;>
        simp only [includes, h1, h2, decide_True, decide_False, if_true, Bool.false_eq_true,
          if_false, Bool.or_true, Bool.true_or]
    · refine ⟨⟨message.data.takeWhile fun c => c ≠ '('⟩, ?_, ?_⟩
      · have h2a : ¬ "INVALID_ARGUMENT".data <:+: message.data := fun h => h2 (Or.inl h)
        have h2b : ¬ "no matching fragment".data <:+: message.data := fun h => h2 (Or.inr h)
        simp only [includes, h1, h2a, h2b, decide_False, Bool.or_self, Bool.false_eq_true,
          if_false]
      · rw [if_neg h1, if_neg h2]
        refine ⟨List.takeWhile_prefix _, ?_, ?_⟩
        · intro hmem
          have := List.mem_takeWhile_imp hmem
          simp at this
        · rcases takeWhile_ne_paren message.data with h | ⟨rest, h⟩
          · left
            cases message
            exact congrArg String.mk h
          · right
            exact ⟨rest, h⟩

/-- C19 on the code: a donation of 5 ETH made through the modal opened from the
list and confirmed ends with the success alert and `onClose`; `fetchCampaigns`,
passed as `refreshCampaigns`, is not called. -/
theorem modal_success_does_not_refresh :
    (listModalProps (some acceptingContract) labCampaign).refreshCampaigns = [.fetchCampaigns]
      ∧ DonateModal.handleDonate (some acceptingContract) sampleParseEther
          (listModalProps (some acceptingContract) labCampaign) "5"
        = [.setLoading true, .donate 2 5000000000000000000, .wait, .setLoading false,
            .alert "Donation successful!", .setSelectedCampaign none]
      ∧ Effect.fetchCampaigns ∉
          DonateModal.handleDonate (some acceptingContract) sampleParseEther
            (listModalProps (some acceptingContract) labCampaign) "5" := by
  decide

/-! ## Properties of the detail view -/

/-- A Number greater than 0 is not `<= 0`. -/
theorem JsDecimal.leZero_of_gtZero (x : JsDecimal) (h : x.gtZero = true) : x.leZero = false := by
  cases x <;> simp_all [JsDecimal.gtZero]

/-- `fetchCampaign` leaves the donation fields of the state as they are. -/
theorem fetchCampaign_donation_fields (contract : Option DetailContract) (id : Option String)
    (s : DetailState) :
    (fetchCampaign contract id s).1.donationSuccess = s.donationSuccess
      ∧ (fetchCampaign contract id s).1.donationAmount = s.donationAmount := by
  unfold fetchCampaign
  split
  · split
    · exact ⟨rfl, rfl⟩
    · split <;> exact ⟨rfl, rfl⟩
  · exact ⟨rfl, rfl⟩

/-- `fetchCampaign` reads the campaign when a contract and an id are present,
and does nothing else. -/
theorem fetchCampaign_effects (contract : Option DetailContract) (id : Option String)
    (s : DetailState) :
    (fetchCampaign contract id s).2
      = match contract, id with
        | some _, some i => if i = "" then [] else [.getCampaignDetails i]
        | _, _ => [] := by
  unfold fetchCampaign
  split
  · split
    · simp_all
    · split <;> simp_all
  · simp_all

/-- `handleDonate` of the detail view on an amount that passes its check. -/
theorem detail_handleDonate_of_valid (contract : Option DetailContract) (id : Option String)
    (s : DetailState)
    (hgood : (decide (s.donationAmount = "") || isNaN s.donationAmount
      || (parseFloat s.donationAmount).leZero) = false) :
    CampaignDetails.handleDonate contract id s
      = ({ (fetchCampaign contract id
              { s with
                donating := true, error := none, donationSuccess := true,
                donationAmount := "" }).1 with donating := false },
          .delay 1500 ::
            (fetchCampaign contract id
              { s with
                donating := true, error := none, donationSuccess := true,
                donationAmount := "" }).2) := by
  unfold CampaignDetails.handleDonate
  rw [hgood]
  rfl

/-- C20: `handleDonate` of the detail view makes no contract write: its only
effects are the simulated delay and the re-read of the campaign.  For an empty
amount, a non-numeric one (`isNaN`) or one whose Number is not positive
(`parseFloat(amount) <= 0`, which includes a literal so small that it denotes
0) it sets the error `Please enter a valid donation amount` and stops; for
every other amount, and so for every amount whose Number is greater than 0, it
waits the delay, sets `donationSuccess`, clears the amount and calls
`fetchCampaign`, which re-reads the campaign when a contract and an id are
present. -/
theorem detail_handleDonate_simulated (contract : Option DetailContract)
    (id : Option String) (s : DetailState) :
    (∀ e ∈ (CampaignDetails.handleDonate contract id s).2,
        e = .delay 1500 ∨ ∃ i, e = .getCampaignDetails i)
      ∧ ((s.donationAmount = "" ∨ isNaN s.donationAmount = true
            ∨ (parseFloat s.donationAmount).leZero = true) →
          CampaignDetails.handleDonate contract id s
            = ({ s with error := some "Please enter a valid donation amount" }, []))
      ∧ (¬ (s.donationAmount = "" ∨ isNaN s.donationAmount = true
            ∨ (parseFloat s.donationAmount).leZero = true) →
          (CampaignDetails.handleDonate contract id s).2
              = .delay 1500 ::
                (match contract, id with
                  | some _, some i => if i = "" then [] else [.getCampaignDetails i]
                  | _, _ => [])
            ∧ (CampaignDetails.handleDonate contract id s).1.donationSuccess = true
            ∧ (CampaignDetails.handleDonate contract id s).1.donationAmount = ""
            ∧ (CampaignDetails.handleDonate contract id s).1.donating = false)
      ∧ ((parseFloat s.donationAmount).gtZero = true →
          (parseFloat s.donationAmount).leZero = false)
      ∧ ((parseFloat s.donationAmount).gtZero = false →
          (parseFloat s.donationAmount).leZero = true
            ∨ parseFloat s.donationAmount = .nan) := by
  refine ⟨?_, ?_, ?_, JsDecimal.leZero_of_gtZero _, ?_⟩
  · intro e he
    by_cases hbad : (decide (s.donationAmount = "") || isNaN s.donationAmount
        || (parseFloat s.donationAmount).leZero) = true
    · simp [CampaignDetails.handleDonate, hbad] at he
    · rw [detail_handleDonate_of_valid contract id s (by simpa using hbad)] at he
      simp only [List.mem_cons] at he
      rcases he with he | he
      · exact Or.inl he
      · right
        rw [fetchCampaign_effects] at he
        revert he
        cases contract with
        | none => simp
        | some c =>
          cases id with
          | none => simp
          | some i =>
            by_cases hi : i = ""
            · simp [hi]
            · intro he
              exact ⟨i, by simpa [hi] using he⟩
  · intro hbad
    have hbad' : (decide (s.donationAmount = "") || isNaN s.donationAmount
        || (parseFloat s.donationAmount).leZero) = true := by
      rcases hbad with h | h | h <;> simp [h]
    simp [CampaignDetails.handleDonate, hbad']
  · intro hok
    have hgood : (decide (s.donationAmount = "") || isNaN s.donationAmount
        || (parseFloat s.donationAmount).leZero) = false := by
      simpa [and_assoc] using hok
    rw [detail_handleDonate_of_valid contract id s hgood]
    refine ⟨?_, ?_, ?_, rfl⟩
    · show Effect.delay 1500 :: _ = _
      rw [fetchCampaign_effects]
    · exact (fetchCampaign_donation_fields _ _ _).1
    · exact (fetchCampaign_donation_fields _ _ _).2
  · intro h
    cases hx : parseFloat s.donationAmount with
    | nan => exact Or.inr rfl
    | infinity negative => rw [hx] at h; left; simpa [JsDecimal.gtZero] using h
    | finite negative mantissa exponent =>
      rw [hx] at h; left; simpa [JsDecimal.gtZero] using h

/-- C20 on campaign `2`: the amounts `0.5` and `1e-323` give the delay and the
re-read; the text `abc`, the amount `-1`, the amount `0` and the amount
`1e-400`, which denotes the Number 0, give the error and nothing else. -/
theorem detail_handleDonate_simulated_witness :
    (CampaignDetails.handleDonate (some sampleDetailContract) (some "2")
              (typedAmount "0.5")).2
        = [.delay 1500, .getCampaignDetails "2"]
      ∧ (CampaignDetails.handleDonate (some sampleDetailContract) (some "2")
          (typedAmount "1e-323")).2 = [.delay 1500, .getCampaignDetails "2"]
      ∧ CampaignDetails.handleDonate (some sampleDetailContract) (some "2") (typedAmount "abc")
        = ({ typedAmount "abc" with error := some "Please enter a valid donation amount" }, [])
      ∧ CampaignDetails.handleDonate (some sampleDetailContract) (some "2") (typedAmount "-1")
        = ({ typedAmount "-1" with error := some "Please enter a valid donation amount" }, [])
      ∧ CampaignDetails.handleDonate (some sampleDetailContract) (some "2") (typedAmount "0")
        = ({ typedAmount "0" with error := some "Please enter a valid donation amount" }, [])
      ∧ (parseFloat "1e-400").leZero = true
      ∧ (parseFloat "0.5").gtZero = true
      ∧ CampaignDetails.handleDonate (some sampleDetailContract) (some "2") (typedAmount "1e-400")
        = ({ typedAmount "1e-400" with
              error := some "Please enter a valid donation amount" }, [])
      ∧ ¬ ((typedAmount "0.5").donationAmount = ""
        ∨ isNaN (typedAmount "0.5").donationAmount = true
        ∨ (parseFloat (typedAmount "0.5").donationAmount).leZero = true)
      ∧ ((CampaignDetails.handleDonate (some sampleDetailContract) (some "2")
              (typedAmount "0.5")).2
            = .delay 1500 ::
              (match some sampleDetailContract, some "2" with
                | some _, some i => if i = "" then [] else [.getCampaignDetails i]
                | _, _ => [])
          ∧ (CampaignDetails.handleDonate (some sampleDetailContract) (some "2")
              (typedAmount "0.5")).1.donationSuccess = true
          ∧ (CampaignDetails.handleDonate (some sampleDetailContract) (some "2")
              (typedAmount "0.5")).1.donationAmount = ""
          ∧ (CampaignDetails.handleDonate (some sampleDetailContract) (some "2")
              (typedAmount "0.5")).1.donating = false) :=
  ⟨by decide, by decide, by decide, by decide, by decide, by decide, by decide,
    (detail_handleDonate_simulated (some sampleDetailContract) (some "2")
      (typedAmount "1e-400")).2.1 (by decide),
    by decide,
    (detail_handleDonate_simulated (some sampleDetailContract) (some "2")
      (typedAmount "0.5")).2.2.1 (by decide)⟩


/-! ## Properties of the wallet context -/

/-- C21 on the code: on a page with a wallet, the handler subscribed at mount
(function object 0) is still subscribed to `accountsChanged` after the cleanup
has run, because the cleanup passes a new function object (1) to
`removeListener`. -/
theorem cleanup_leaves_handler_subscribed :
    (mountEffect walletPage).2 = some 0
      ∧ (mountEffect walletPage).1.ethereum
        = some { listeners := [("accountsChanged", 0)] }
      ∧ (cleanupEffect (mountEffect walletPage).1).ethereum
        = some { listeners := [("accountsChanged", 0)] }
      ∧ (cleanupEffect (mountEffect walletPage).1).functionCount = 2 := by
  decide

/-! ## More properties of `fetchCampaigns` and `formatCampaignData` -/

/-- C22: whatever the outcome of `fetchCampaigns` (no contract, count read
failed, any detail reads failed, all succeeded), `isLoading` is false when it
completes, and the view rendered then is not the loading view. -/
theorem fetchCampaigns_clears_loading (contract : Option Contract) (account : Option String)
    (settledAt : Nat → Nat) (doneMs : Nat) (s : ListState) :
    (fetchCampaigns contract account settledAt doneMs s).1.isLoading = false
      ∧ renderListView (fetchCampaigns contract account settledAt doneMs s).1
        ≠ .loading := by
  have hload : (fetchCampaigns contract account settledAt doneMs s).1.isLoading = false := by
    unfold fetchCampaigns
    cases contract with
    | none => rfl
    | some c =>
      cases hc : c.getCampaignCount with
      | error e => simp only [hc]
      | ok n => simp only [hc]
  refine ⟨hload, ?_⟩
  unfold renderListView
  rw [hload]
  simp only [Bool.false_and, Bool.false_eq_true, if_false]
  split <;> split_ifs <;> simp

/-- C24 fails as stated: with a goal of 1000 and 90071992547409931 raised, the
floor of `100 * raised / goal` is 9007199254740993, which is not a Number;
`progress` is the nearest Number, 9007199254740992. -/
theorem progress_rounds_large_quotient :
    100 * (sampleDetails "Lab" 1000 90071992547409931 1800000000 "0xAbCd" false).raised
          / (sampleDetails "Lab" 1000 90071992547409931 1800000000 "0xAbCd" false).goal
        = 9007199254740993
      ∧ (formatCampaignData none 1700000000000
          (sampleDetails "Lab" 1000 90071992547409931 1800000000 "0xAbCd" false) 1).progress
        = 9007199254740992 := by
  decide

/-- C24, amended: `progress` is 0 when the goal is 0; when the goal is positive
it is the Number nearest to the floor `q` of `100 * raised / goal`: it is `q`
itself when `q < 2 ^ 53`, and it differs from `q` by at most `q / 2 ^ 53` in
every case; and for a positive goal `isFullyFunded` holds exactly when
raised ≥ goal. -/
theorem progress_is_rounded_floor (account : Option String) (nowMs : Nat)
    (details : CampaignDetails) (id : Nat) :
    (details.goal = 0 → (formatCampaignData account nowMs details id).progress = 0)
      ∧ (0 < details.goal →
        (100 * details.raised / details.goal < 2 ^ 53 →
            (formatCampaignData account nowMs details id).progress
                = ⌊((100 * details.raised : ℕ) : ℚ) / (details.goal : ℚ)⌋₊
              ∧ (formatCampaignData account nowMs details id).progress * details.goal
                ≤ 100 * details.raised
              ∧ 100 * details.raised
                < ((formatCampaignData account nowMs details id).progress + 1) * details.goal)
          ∧ (formatCampaignData account nowMs details id).progress
            ≤ ⌊((100 * details.raised : ℕ) : ℚ) / (details.goal : ℚ)⌋₊
              + ⌊((100 * details.raised : ℕ) : ℚ) / (details.goal : ℚ)⌋₊ / 2 ^ 53
          ∧ ⌊((100 * details.raised : ℕ) : ℚ) / (details.goal : ℚ)⌋₊
            ≤ (formatCampaignData account nowMs details id).progress
              + ⌊((100 * details.raised : ℕ) : ℚ) / (details.goal : ℚ)⌋₊ / 2 ^ 53
          ∧ ((formatCampaignData account nowMs details id).isFullyFunded = true ↔
            details.raised ≥ details.goal)) := by
  constructor
  · intro h0
    simp [formatCampaignData, h0]
  · intro hpos
    have hprog : (formatCampaignData account nowMs details id).progress
        = numberOfBigInt (100 * details.raised / details.goal) := by
      simp [formatCampaignData, hpos, Nat.mul_comm]
    have hfull : (formatCampaignData account nowMs details id).isFullyFunded
        = decide ((formatCampaignData account nowMs details id).progress ≥ 100) := rfl
    have hnear := numberOfBigInt_near (100 * details.raised / details.goal)
    refine ⟨fun hsmall => ⟨?_, ?_, ?_⟩, ?_, ?_, ?_⟩
    · rw [hprog, numberOfBigInt_of_lt _ hsmall, Nat.floor_div_eq_div]
    · rw [hprog, numberOfBigInt_of_lt _ hsmall]
      exact Nat.div_mul_le_self _ _
    · rw [hprog, numberOfBigInt_of_lt _ hsmall]
      have h1 := Nat.div_add_mod (100 * details.raised) details.goal
      have h2 := Nat.mod_lt (100 * details.raised) hpos
      nlinarith
    · rw [hprog, Nat.floor_div_eq_div]
      exact hnear.1
    · rw [hprog, Nat.floor_div_eq_div]
      exact hnear.2
    · rw [hfull, decide_eq_true_eq, hprog, ge_iff_le, numberOfBigInt_ge_hundred_iff,
        Nat.le_div_iff_mul_le hpos]
      constructor
      · intro h
        nlinarith
      · intro h
        nlinarith

/-- The amended C24 on a campaign that has raised 1500 of a goal of 1000:
progress 150, fully funded. -/
theorem progress_is_rounded_floor_witness :
    fundedOwnCampaign.progress = 150
      ∧ (fundedDetails.goal = 0 → fundedOwnCampaign.progress = 0)
      ∧ ((100 * fundedDetails.raised / fundedDetails.goal < 2 ^ 53 →
            fundedOwnCampaign.progress
                = ⌊((100 * fundedDetails.raised : ℕ) : ℚ) / (fundedDetails.goal : ℚ)⌋₊
              ∧ fundedOwnCampaign.progress * fundedDetails.goal ≤ 100 * fundedDetails.raised
              ∧ 100 * fundedDetails.raised
                < (fundedOwnCampaign.progress + 1) * fundedDetails.goal)
        ∧ fundedOwnCampaign.progress
            ≤ ⌊((100 * fundedDetails.raised : ℕ) : ℚ) / (fundedDetails.goal : ℚ)⌋₊
              + ⌊((100 * fundedDetails.raised : ℕ) : ℚ) / (fundedDetails.goal : ℚ)⌋₊
                / 2 ^ 53
        ∧ ⌊((100 * fundedDetails.raised : ℕ) : ℚ) / (fundedDetails.goal : ℚ)⌋₊
            ≤ fundedOwnCampaign.progress
              + ⌊((100 * fundedDetails.raised : ℕ) : ℚ) / (fundedDetails.goal : ℚ)⌋₊
                / 2 ^ 53
        ∧ (fundedOwnCampaign.isFullyFunded = true ↔
            fundedDetails.raised ≥ fundedDetails.goal)) :=
  ⟨by decide,
    (progress_is_rounded_floor (some "0xabcd") 1700000000000 fundedDetails 4).1,
    (progress_is_rounded_floor (some "0xabcd") 1700000000000 fundedDetails 4).2 (by decide)⟩

/-- C29: for the fields `formatCampaignData` computes, `isUrgent` implies not
`isExpired`, `isExpired` implies that the whole-day `timeRemaining` is 0,
`timeRemaining` is not negative, and `isUrgent` implies that `timeRemaining` is
0, 1, 2 or 3. -/
theorem urgency_expiry_invariants (account : Option String) (nowMs : Nat)
    (details : CampaignDetails) (id : Nat) :
    ((formatCampaignData account nowMs details id).isUrgent = true →
        (formatCampaignData account nowMs details id).isExpired = false)
      ∧ ((formatCampaignData account nowMs details id).isExpired = true →
        (formatCampaignData account nowMs details id).timeRemaining = 0)
      ∧ (0 : Int) ≤ ((formatCampaignData account nowMs details id).timeRemaining : Int)
      ∧ ((formatCampaignData account nowMs details id).isUrgent = true →
        (formatCampaignData account nowMs details id).timeRemaining ∈ [0, 1, 2, 3]) := by
  simp only [formatCampaignData, Bool.and_eq_true, decide_eq_true_eq, decide_eq_false_iff_not,
    List.mem_cons, List.mem_singleton, List.not_mem_nil, or_false]
  generalize nowMs / 1000 = now
  refine ⟨?_, ?_, ?_, ?_⟩
  · intro h
    split_ifs at h <;> omega
  · intro h
    split_ifs <;> omega
  · exact Int.natCast_nonneg _
  · intro h
    split_ifs at h ⊢ <;> omega

/-- C29 on a campaign whose deadline is two days and one hour away: urgent, not
expired, 2 whole days remaining. -/
theorem urgency_expiry_invariants_witness :
    (formatCampaignData none 1700000000000
        (sampleDetails "Lab" 1000 10 1700176400 "0xAbCd" false) 6).isUrgent = true
      ∧ (formatCampaignData none 1700000000000
        (sampleDetails "Lab" 1000 10 1700176400 "0xAbCd" false) 6).timeRemaining = 2
      ∧ (((formatCampaignData none 1700000000000
            (sampleDetails "Lab" 1000 10 1700176400 "0xAbCd" false) 6).isUrgent = true →
          (formatCampaignData none 1700000000000
            (sampleDetails "Lab" 1000 10 1700176400 "0xAbCd" false) 6).isExpired = false)
        ∧ ((formatCampaignData none 1700000000000
            (sampleDetails "Lab" 1000 10 1700176400 "0xAbCd" false) 6).isExpired = true →
          (formatCampaignData none 1700000000000
            (sampleDetails "Lab" 1000 10 1700176400 "0xAbCd" false) 6).timeRemaining = 0)
        ∧ (0 : Int) ≤ ((formatCampaignData none 1700000000000
            (sampleDetails "Lab" 1000 10 1700176400 "0xAbCd" false) 6).timeRemaining : Int)
        ∧ ((formatCampaignData none 1700000000000
            (sampleDetails "Lab" 1000 10 1700176400 "0xAbCd" false) 6).isUrgent = true →
          (formatCampaignData none 1700000000000
            (sampleDetails "Lab" 1000 10 1700176400 "0xAbCd" false) 6).timeRemaining
              ∈ [0, 1, 2, 3])) :=
  ⟨by decide, by decide,
    urgency_expiry_invariants none 1700000000000
      (sampleDetails "Lab" 1000 10 1700176400 "0xAbCd" false) 6⟩

/-! ## Properties of the campaign actions and the countdown -/

/-- The two creator buttons of any campaign object: each is rendered at most
once, `Withdraw Funds` when `canWithdraw` is truthy and the campaign is fully
funded, `Close Failed Campaign` when `canWithdraw` is truthy and it is not. -/
theorem renderActions_creator_buttons (c : Campaign) :
    (renderActions c).count .withdrawFunds
        = (if c.canWithdraw.truthy = true ∧ c.isFullyFunded = true then 1 else 0)
      ∧ (renderActions c).count .closeFailedCampaign
        = (if c.canWithdraw.truthy = true ∧ c.isFullyFunded = false then 1 else 0) := by
  cases h1 : c.isClosed <;> cases h2 : c.isExpired <;> cases h3 : c.canWithdraw.truthy <;>
    cases h4 : c.isFullyFunded <;> simp [renderActions, h1, h2, h3, h4]

/-- A truthy `canWithdraw` computed by `formatCampaignData` means that the
campaign is expired or fully funded. -/
theorem expired_or_funded_of_canWithdraw (account : Option String) (nowMs : Nat)
    (details : CampaignDetails) (id : Nat)
    (h : (formatCampaignData account nowMs details id).canWithdraw.truthy = true) :
    (formatCampaignData account nowMs details id).isExpired = true
      ∨ (formatCampaignData account nowMs details id).isFullyFunded = true := by
  cases account with
  | none => simp [formatCampaignData, JsValue.truthy] at h
  | some a =>
    by_cases ha : a = ""
    · simp [formatCampaignData, JsValue.truthy, ha] at h
    · simp only [formatCampaignData, ha, if_false, JsValue.truthy, Bool.and_eq_true,
        Bool.or_eq_true] at h
      exact h.1.2

/-- C25: for a formatted campaign, the buttons `Withdraw Funds` and `Close
Failed Campaign` are together rendered once when `canWithdraw` is truthy and
not at all otherwise; `Withdraw Funds` is the one rendered when the campaign is
fully funded, `Close Failed Campaign` when it is not, and then the campaign is
expired. -/
theorem creator_actions_exclusive (account : Option String) (nowMs : Nat)
    (details : CampaignDetails) (id : Nat) :
    (renderActions (formatCampaignData account nowMs details id)).count .withdrawFunds
        + (renderActions (formatCampaignData account nowMs details id)).count
            .closeFailedCampaign
        = (if (formatCampaignData account nowMs details id).canWithdraw.truthy = true then 1
          else 0)
      ∧ (ActionItem.withdrawFunds ∈ renderActions (formatCampaignData account nowMs details id) ↔
          (formatCampaignData account nowMs details id).canWithdraw.truthy = true
            ∧ (formatCampaignData account nowMs details id).isFullyFunded = true)
      ∧ (ActionItem.closeFailedCampaign
            ∈ renderActions (formatCampaignData account nowMs details id) ↔
          (formatCampaignData account nowMs details id).canWithdraw.truthy = true
            ∧ (formatCampaignData account nowMs details id).isFullyFunded = false)
      ∧ (ActionItem.closeFailedCampaign
            ∈ renderActions (formatCampaignData account nowMs details id) →
          (formatCampaignData account nowMs details id).isExpired = true) := by
  obtain ⟨hw, hc⟩ := renderActions_creator_buttons (formatCampaignData account nowMs details id)
  have hmw : ActionItem.withdrawFunds ∈ renderActions (formatCampaignData account nowMs details id) ↔
      (formatCampaignData account nowMs details id).canWithdraw.truthy = true
        ∧ (formatCampaignData account nowMs details id).isFullyFunded = true := by
    rw [← List.count_pos_iff, hw]
    split_ifs with h <;> simp [h]
  have hmc : ActionItem.closeFailedCampaign
        ∈ renderActions (formatCampaignData account nowMs details id) ↔
      (formatCampaignData account nowMs details id).canWithdraw.truthy = true
        ∧ (formatCampaignData account nowMs details id).isFullyFunded = false := by
    rw [← List.count_pos_iff, hc]
    split_ifs with h <;> simp [h]
  refine ⟨?_, hmw, hmc, ?_⟩
  · rw [hw, hc]
    cases h3 : (formatCampaignData account nowMs details id).canWithdraw.truthy <;>
      cases h4 : (formatCampaignData account nowMs details id).isFullyFunded <;> simp
  · intro hmem
    obtain ⟨ht, hf⟩ := hmc.mp hmem
    rcases expired_or_funded_of_canWithdraw account nowMs details id ht with h | h
    · exact h
    · rw [hf] at h
      exact absurd h (by decide)

/-- C25 on the creator's failed campaign (`Close Failed Campaign` only) and the
creator's funded campaign (`Withdraw Funds` only). -/
theorem creator_actions_exclusive_witness :
    renderActions failedOwnCampaign
        = [.status "Campaign Expired", .closeFailedCampaign]
      ∧ renderActions fundedOwnCampaign = [.donateNow, .withdrawFunds]
      ∧ renderActions labCampaign = [.donateNow]
      ∧ ((renderActions failedOwnCampaign).count .withdrawFunds
            + (renderActions failedOwnCampaign).count .closeFailedCampaign
          = (if failedOwnCampaign.canWithdraw.truthy = true then 1 else 0)
        ∧ (ActionItem.withdrawFunds ∈ renderActions failedOwnCampaign ↔
            failedOwnCampaign.canWithdraw.truthy = true
              ∧ failedOwnCampaign.isFullyFunded = true)
        ∧ (ActionItem.closeFailedCampaign ∈ renderActions failedOwnCampaign ↔
            failedOwnCampaign.canWithdraw.truthy = true
              ∧ failedOwnCampaign.isFullyFunded = false)
        ∧ (ActionItem.closeFailedCampaign ∈ renderActions failedOwnCampaign →
            failedOwnCampaign.isExpired = true)) :=
  ⟨by decide, by decide, by decide,
    creator_actions_exclusive (some "0xabcd") 1700000000000
      (sampleDetails "Books" 1000 10 1600000000 "0xAbCd" false) 5⟩

/-- C26: `handleDonate` of the list selects the campaign exactly when an account
is connected and the campaign is neither closed nor expired; in every other
case it leaves the state, and so the selected campaign, unchanged. -/
theorem list_handleDonate_selects (account : Option String) (campaign : Campaign)
    (s : ListState) :
    (CampaignList.handleDonate account campaign s).1
      = (if accountTruthy account = true ∧ campaign.isClosed = false
            ∧ campaign.isExpired = false then
          { s with selectedCampaign := some campaign }
        else s) := by
  unfold CampaignList.handleDonate
  cases h1 : accountTruthy account <;> cases h2 : campaign.isClosed <;>
    cases h3 : campaign.isExpired <;> simp

/-- C27: for a campaign that is not closed and has `secondsLeft > 0`,
`updateTime` sets hours in `[0, 24)`, minutes in `[0, 60)` and days, hours and
minutes that add up to `secondsLeft` less the seconds of the running minute, and
marks the campaign not ended; otherwise it marks it ended with all three 0. -/
theorem updateTime_breakdown (nowMs deadline : Nat) (isClosed : Bool) :
    (isClosed = false → (deadline : Int) - ((nowMs / 1000 : Nat) : Int) > 0 →
        0 ≤ (updateTime nowMs deadline isClosed).remainingTime.hours
          ∧ (updateTime nowMs deadline isClosed).remainingTime.hours < 24
          ∧ 0 ≤ (updateTime nowMs deadline isClosed).remainingTime.minutes
          ∧ (updateTime nowMs deadline isClosed).remainingTime.minutes < 60
          ∧ (updateTime nowMs deadline isClosed).remainingTime.days * 86400
              + (updateTime nowMs deadline isClosed).remainingTime.hours * 3600
              + (updateTime nowMs deadline isClosed).remainingTime.minutes * 60
            ≤ (deadline : Int) - ((nowMs / 1000 : Nat) : Int)
          ∧ (deadline : Int) - ((nowMs / 1000 : Nat) : Int)
            < (updateTime nowMs deadline isClosed).remainingTime.days * 86400
              + (updateTime nowMs deadline isClosed).remainingTime.hours * 3600
              + (updateTime nowMs deadline isClosed).remainingTime.minutes * 60 + 60
          ∧ (updateTime nowMs deadline isClosed).isEnded = false)
      ∧ (((deadline : Int) - ((nowMs / 1000 : Nat) : Int) ≤ 0 ∨ isClosed = true) →
        updateTime nowMs deadline isClosed
          = { remainingTime := { days := 0, hours := 0, minutes := 0 }, isEnded := true }) := by
  generalize hsl : (deadline : Int) - ((nowMs / 1000 : Nat) : Int) = secondsLeft
  have hdef : updateTime nowMs deadline isClosed
      = if (decide (secondsLeft ≤ 0) || isClosed) = true then
          { remainingTime := { days := 0, hours := 0, minutes := 0 }, isEnded := true }
        else
          { remainingTime :=
              { days := secondsLeft / (60 * 60 * 24)
                hours := (secondsLeft % (60 * 60 * 24)) / (60 * 60)
                minutes := (secondsLeft % (60 * 60)) / 60 }
            isEnded := false } := by
    rw [← hsl]
    rfl
  rw [hdef]
  constructor
  · intro hopen hpos
    have hcond : (decide (secondsLeft ≤ 0) || isClosed) = false := by
      simp [hopen, hpos]
    rw [hcond]
    simp only [Bool.false_eq_true, if_false]
    refine ⟨?_, ?_, ?_, ?_, ?_, ?_, trivial⟩ <;> omega
  · intro hend
    have hcond : (decide (secondsLeft ≤ 0) || isClosed) = true := by
      rcases hend with h | h <;> simp [h]
    rw [hcond]
    rfl

/-- C27 at a deadline 1 day, 2 hours, 3 minutes and 4 seconds ahead, and at a
deadline that has passed. -/
theorem updateTime_breakdown_witness :
    updateTime 1000000 94784 false
        = { remainingTime := { days := 1, hours := 2, minutes := 3 }, isEnded := false }
      ∧ updateTime 1000000 900 false
        = { remainingTime := { days := 0, hours := 0, minutes := 0 }, isEnded := true }
      ∧ (0 ≤ (updateTime 1000000 94784 false).remainingTime.hours
        ∧ (updateTime 1000000 94784 false).remainingTime.hours < 24
        ∧ 0 ≤ (updateTime 1000000 94784 false).remainingTime.minutes
        ∧ (updateTime 1000000 94784 false).remainingTime.minutes < 60
        ∧ (updateTime 1000000 94784 false).remainingTime.days * 86400
            + (updateTime 1000000 94784 false).remainingTime.hours * 3600
            + (updateTime 1000000 94784 false).remainingTime.minutes * 60
          ≤ ((94784 : Nat) : Int) - ((1000000 / 1000 : Nat) : Int)
        ∧ ((94784 : Nat) : Int) - ((1000000 / 1000 : Nat) : Int)
          < (updateTime 1000000 94784 false).remainingTime.days * 86400
            + (updateTime 1000000 94784 false).remainingTime.hours * 3600
            + (updateTime 1000000 94784 false).remainingTime.minutes * 60 + 60
        ∧ (updateTime 1000000 94784 false).isEnded = false) :=
  ⟨by decide, by decide,
    (updateTime_breakdown 1000000 94784 false).1 rfl (by decide)⟩

/-! ## Purity and idempotence of the pipeline -/

/-- C23 on the code: with sort key `most-funded` the three fetched campaigns,
all of which pass the blank search and the filter `all`, give no result: the
sort throws a `TypeError` (the defect of C3). -/
theorem mostFunded_pipeline_gives_no_permutation :
    (applyFilter "all" none (applySearch toLowerCase "" threeCampaigns)) = threeCampaigns
      ∧ threeCampaigns.length = 3
      ∧ filteredCampaigns toLowerCase threeCampaigns "all" "most-funded" "" none
        = .error (.typeError "Cannot convert a BigInt value to a number") := by
  decide

/-- The search keeps a list whose campaigns all passed the same search. -/
theorem applySearch_eq_self (lower : String → String) (searchTerm : String)
    (l r : List Campaign)
    (h : ∀ x ∈ r, x ∈ applySearch lower searchTerm l) :
    applySearch lower searchTerm r = r := by
  unfold applySearch at h ⊢
  split_ifs at h ⊢
  · exact List.filter_eq_self.mpr fun x hx => (List.mem_filter.mp (h x hx)).2
  · rfl

/-- The status filter keeps a list whose campaigns all passed the same filter. -/
theorem applyFilter_eq_self (filter : String) (account : Option String)
    (l r : List Campaign) (h : ∀ x ∈ r, x ∈ applyFilter filter account l) :
    applyFilter filter account r = r := by
  unfold applyFilter at h ⊢
  split_ifs at h ⊢
  · exact List.filter_eq_self.mpr fun x hx => (List.mem_filter.mp (h x hx)).2
  · exact List.filter_eq_self.mpr fun x hx => (List.mem_filter.mp (h x hx)).2
  · exact List.filter_eq_self.mpr fun x hx => (List.mem_filter.mp (h x hx)).2
  · exact List.filter_eq_self.mpr fun x hx => (List.mem_filter.mp (h x hx)).2
  · exact List.filter_eq_self.mpr fun x hx => (List.mem_filter.mp (h x hx)).2
  · rfl

/-- Sorting again, with a comparator whose results convert to Numbers and
induce a total relation, returns the sorted list unchanged. -/
theorem arraySort_insertionSort_of_le {α : Type} (cmp : α → α → JsNumeric)
    (rel : α → α → Prop) [DecidableRel rel]
    (h : ∀ x y, ∃ v, toNumber (cmp x y) = .ok v ∧ (v ≤ 0 ↔ rel x y))
    (htotal : ∀ a b, rel a b ∨ rel b a) (l : List α) :
    arraySort cmp (List.insertionSort rel l) = .ok (List.insertionSort rel l) := by
  rw [arraySort_of_le cmp rel h,
    insertionSort_eq_of_chain rel _ (insertionSort_chain rel htotal l)]

/-- Sorting again, with a comparator whose results convert to Numbers and of
which one of `cmp a b`, `cmp b a` is at most 0, returns the sorted list
unchanged. -/
theorem arraySort_idempotent_of_ok {α : Type} (cmp : α → α → JsNumeric)
    (h : ∀ x y, ∃ v, toNumber (cmp x y) = .ok v)
    (htotal : ∀ a b, sortsBefore cmp a b = true ∨ sortsBefore cmp b a = true)
    (l r : List α) (hr : arraySort cmp l = .ok r) : arraySort cmp r = .ok r := by
  rw [arraySort_of_ok cmp h, Except.ok.injEq] at hr
  rw [← hr]
  refine arraySort_insertionSort_of_le cmp _ ?_ htotal l
  intro x y
  obtain ⟨v, hv⟩ := h x y
  exact ⟨v, hv, by simp [sortsBefore, hv]⟩

/-- For a sort key other than `most-funded`, sorting the sorted list again
returns it unchanged. -/
theorem applySort_idempotent (sortBy : String) (l r : List Campaign)
    (hne : sortBy ≠ "most-funded") (h : applySort sortBy l = .ok r) :
    applySort sortBy r = .ok r := by
  have hnewest : ∀ l' r' : List Campaign, arraySort compareNewest l' = .ok r' →
      arraySort compareNewest r' = .ok r' :=
    arraySort_idempotent_of_ok compareNewest (fun _ _ => toNumber_sub_ok _ _)
      (fun a b => sortsBefore_sub_total b.creationDate a.creationDate)
  unfold applySort at h ⊢
  rw [if_neg hne] at h ⊢
  split_ifs at h ⊢
  · rw [arraySort_compareEndingSoon, Except.ok.injEq] at h
    rw [← h]
    refine arraySort_insertionSort_of_le compareEndingSoon _ ?_ ?_ l
    · intro x y
      unfold compareEndingSoon
      cases hx : x.isExpired <;> cases hy : y.isExpired <;> simp [toNumber]
    · intro a b
      cases ha : a.isExpired <;> cases hb : b.isExpired <;> simp <;> omega
  · exact hnewest l r h
  · exact arraySort_idempotent_of_ok compareOldest (fun _ _ => toNumber_sub_ok _ _)
      (fun a b => sortsBefore_sub_total a.creationDate b.creationDate) l r h
  · exact hnewest l r h

/-- C28: for a sort key other than `most-funded`, the pipeline returns a list,
and the pipeline run on that list with the same search term, filter, sort key
and account returns it unchanged. -/
theorem pipeline_idempotent (lower : String → String) (campaigns : List Campaign)
    (filter sortBy searchTerm : String) (account : Option String) (hne : sortBy ≠ "most-funded") :
    ∃ r, filteredCampaigns lower campaigns filter sortBy searchTerm account = .ok r
      ∧ filteredCampaigns lower r filter sortBy searchTerm account = .ok r := by
  obtain ⟨r, hr⟩ :=
    filteredCampaigns_ok_of_ne lower campaigns filter sortBy searchTerm account hne
  refine ⟨r, hr, ?_⟩
  have hmem : ∀ x ∈ r,
      x ∈ applyFilter filter account (applySearch lower searchTerm campaigns) :=
    fun x hx => (filteredCampaigns_perm _ _ _ _ _ _ r hr).mem_iff.mp hx
  have hsearch : applySearch lower searchTerm r = r :=
    applySearch_eq_self lower searchTerm campaigns r
      fun x hx => mem_of_mem_applyFilter _ _ _ x (hmem x hx)
  have hfilter : applyFilter filter account r = r :=
    applyFilter_eq_self filter account (applySearch lower searchTerm campaigns) r hmem
  unfold filteredCampaigns at hr ⊢
  rw [hsearch, hfilter]
  exact applySort_idempotent sortBy _ r hne hr

/-- C28 on the three campaigns under filter `expired`, sort `ending-soon` and
the search term `o`. -/
theorem pipeline_idempotent_witness :
    (filteredCampaigns toLowerCase threeCampaigns "expired" "ending-soon" "o" none).map
        (List.map fun c => c.id) = .ok [3, 1]
      ∧ "ending-soon" ≠ "most-funded"
      ∧ ∃ r,
        filteredCampaigns toLowerCase threeCampaigns "expired" "ending-soon" "o" none = .ok r
        ∧ filteredCampaigns toLowerCase r "expired" "ending-soon" "o" none = .ok r :=
  ⟨by decide, by decide,
    pipeline_idempotent toLowerCase threeCampaigns "expired" "ending-soon" "o" none (by decide)⟩


end UETM
